import Mathlib

/-!
# Verification of the mirbft client-window and serial-processor code

Shallow embedding of the client request tracking windows
(`src/unnamed/part_000`, Go package `mirbft`) and of the serial processor
(`src/processor.go`).  Go machine integers (`uint64`) are modelled as `Nat`:
none of the embedded operations can overflow a `uint64` other than by
iterating `2^64` times, which the claims never exercise; watermark and
sequence arithmetic is pure increment/comparison.  Go maps are modelled as
association lists, Go sets (`map[NodeID]struct{}`) as `Finset Nat`, and Go
panics as `Option`-valued functions returning `none`.

The Go `clientWindow` keeps the request slots both in an ordered linked
list (`reqNoList`) and in a lookup map (`reqNoMap`) pointing at the list
elements; the two are mutated in lockstep, so the embedding keeps a single
ordered list and models a `reqNoMap` lookup as a search of the list by
`reqNo`.  Go pointer fields that alias entries of the `digests` map
(`strongRequest`) are modelled by the map key (the digest), which is how
the code itself addresses those entries.
-/

namespace Mirbft

/-- Byte strings (digests, request payloads) as lists of bytes. -/
abbrev Digest := List Nat

abbrev NodeID := Nat

/-- `pb.NetworkState_Config`: the fields the client-window code reads. -/
structure NetConfig where
  nodes : List Nat
  numberOfBuckets : Nat
deriving DecidableEq

/-- Modelled from the spec: `f = (n-1)/3` derived from the network config
(the quorum helpers are not among the provided source files). -/
def configF (c : NetConfig) : Nat := (c.nodes.length - 1) / 3

/-- Modelled from the spec: `someCorrectQuorum(cfg) = f+1`. -/
def someCorrectQuorum (c : NetConfig) : Nat := configF c + 1

/-- Modelled from the spec: `intersectionQuorum(cfg) = 2f+1`. -/
def intersectionQuorum (c : NetConfig) : Nat := 2 * configF c + 1

/-- `pb.Request`: client id, request number and payload. -/
structure Request where
  clientId : Nat
  reqNo : Nat
  data : List Nat
deriving DecidableEq

/-- `clientRequest`: one digest proposed for a reqNo, the payload once known,
and the set of nodes that ACKed this digest. -/
structure clientRequest where
  digest : Digest
  data : Option Request
  agreements : Finset NodeID
deriving DecidableEq

/-- `clientReqNo`: one slot of a client window.  `strongRequest` is a Go
pointer into the `digests` map; it is modelled by the digest key. -/
structure clientReqNo where
  clientID : Nat
  reqNo : Nat
  digests : List (Digest × clientRequest)
  committed : Option Nat
  strongRequest : Option Digest
deriving DecidableEq

/-- `clientWindow`: a per-client sliding window of request slots.
The Go struct's `clientWaiter` (a host-notification channel) and `logger`
are not modelled; no claim mentions them. -/
structure clientWindow where
  clientID : Nat
  nextReadyMark : Nat
  lowWatermark : Nat
  highWatermark : Nat
  reqNoList : List clientReqNo
  networkConfig : NetConfig
deriving DecidableEq

/-- Association-list lookup (Go map read). -/
def alookup {α β : Type} [DecidableEq α] : List (α × β) → α → Option β
  | [], _ => none
  | (k, v) :: rest, a => if k = a then some v else alookup rest a

/-- Association-list insert-or-replace (Go map assignment). -/
def ainsert {α β : Type} [DecidableEq α] : List (α × β) → α → β → List (α × β)
  | [], a, b => [(a, b)]
  | (k, v) :: rest, a, b => if k = a then (a, b) :: rest else (k, v) :: ainsert rest a b

/-- Replace the slot with the given reqNo by `crn` (Go mutates the list
element found through `reqNoMap` in place). -/
def updateSlot (l : List clientReqNo) (r : Nat) (crn : clientReqNo) : List clientReqNo :=
  l.map (fun c => if c.reqNo == r then crn else c)

/-- `newClientWindow`: slots for every reqNo in `[low, high]`, all marks at
`low`. -/
def newClientWindow (clientID low high : Nat) (cfg : NetConfig) : clientWindow :=
  { clientID := clientID
    nextReadyMark := low
    lowWatermark := low
    highWatermark := high
    reqNoList := (List.range (high + 1 - low)).map (fun i =>
      { clientID := clientID, reqNo := low + i, digests := [], committed := none,
        strongRequest := none })
    networkConfig := cfg }

/-- The loop guard of `clientWindow.garbageCollect`: an entry is removed
while `committed != nil && *committed <= maxSeqNo`. -/
def crnRemovable (maxSeqNo : Nat) (crn : clientReqNo) : Bool :=
  match crn.committed with
  | none => false
  | some c => c ≤ maxSeqNo

/-- `clientWindow.garbageCollect`: remove committed entries from the front,
updating `nextReadyMark` to the removed entry's reqNo when it is `≥` the
current mark, then grow the far end by one slot per removal and slide both
watermarks.  (The `clientWaiter` renewal is host signalling, not modelled.) -/
def clientWindow.garbageCollect (cw : clientWindow) (maxSeqNo : Nat) : clientWindow :=
  let removedList := cw.reqNoList.takeWhile (crnRemovable maxSeqNo)
  let remaining := cw.reqNoList.dropWhile (crnRemovable maxSeqNo)
  let mark := removedList.foldl (fun m crn => if m ≤ crn.reqNo then crn.reqNo else m)
    cw.nextReadyMark
  let removed := removedList.length
  let newOnes := (List.range removed).map (fun i =>
    ({ clientID := cw.clientID, reqNo := cw.highWatermark + 1 + i, digests := [],
       committed := none, strongRequest := none } : clientReqNo))
  { cw with
    reqNoList := remaining ++ newOnes
    nextReadyMark := mark
    lowWatermark := cw.lowWatermark + removed
    highWatermark := cw.highWatermark + removed }

/-- The lookup-or-create of a digest's `clientRequest`
(`crn.digests[string(digest)]` with insertion of a fresh record on miss). -/
def getOrNew (ds : List (Digest × clientRequest)) (digest : Digest) : clientRequest :=
  match alookup ds digest with
  | some cr => cr
  | none => { digest := digest, data := none, agreements := ∅ }

/-- `clientWindow.ack`: record `source` in the digest's agreement set
(creating the `clientRequest` on first contact), report the newly-correct
payload when the set size equals `someCorrectQuorum`, and promote
`strongRequest` when it equals `intersectionQuorum`.  `none` models the
panics (reqNo outside `[low, high]` or missing from `reqNoMap`). -/
def clientWindow.ack (cw : clientWindow) (source : NodeID) (reqNo : Nat) (digest : Digest) :
    Option (clientRequest × clientReqNo × Option Request × clientWindow) :=
  if reqNo > cw.highWatermark then none
  else if reqNo < cw.lowWatermark then none
  else
    match cw.reqNoList.find? (fun c => c.reqNo == reqNo) with
    | none => none
    | some crn =>
      let cr0 := getOrNew crn.digests digest
      let cr := { cr0 with agreements := insert source cr0.agreements }
      let newlyCorrectReq : Option Request :=
        if cr.agreements.card = someCorrectQuorum cw.networkConfig then cr.data else none
      let strong := if cr.agreements.card = intersectionQuorum cw.networkConfig
        then some digest else crn.strongRequest
      let crn' := { crn with digests := ainsert crn.digests digest cr, strongRequest := strong }
      some (cr, crn', newlyCorrectReq,
        { cw with reqNoList := updateSlot cw.reqNoList reqNo crn' })

/-- `clientWindow.allocate`: record the request payload at the reqNo/digest
(creating the `clientRequest` on first contact), report it newly correct
when the agreement set already has `≥ someCorrectQuorum` members, and
promote `strongRequest` when it equals `intersectionQuorum`. -/
def clientWindow.allocate (cw : clientWindow) (requestData : Request) (digest : Digest) :
    Option (clientReqNo × Option Request × clientWindow) :=
  if requestData.reqNo > cw.highWatermark then none
  else if requestData.reqNo < cw.lowWatermark then none
  else
    match cw.reqNoList.find? (fun c => c.reqNo == requestData.reqNo) with
    | none => none
    | some crn =>
      let cr0 := getOrNew crn.digests digest
      let cr := { cr0 with data := some requestData }
      let newlyCorrectReq : Option Request :=
        if cr.agreements.card ≥ someCorrectQuorum cw.networkConfig then some requestData
        else none
      let strong := if cr.agreements.card = intersectionQuorum cw.networkConfig
        then some digest else crn.strongRequest
      let crn' := { crn with digests := ainsert crn.digests digest cr, strongRequest := strong }
      some (crn', newlyCorrectReq,
        { cw with reqNoList := updateSlot cw.reqNoList requestData.reqNo crn' })

/-- `clientWindow.inWatermarks`. -/
def clientWindow.inWatermarks (cw : clientWindow) (reqNo : Nat) : Bool :=
  reqNo ≤ cw.highWatermark && cw.lowWatermark ≤ reqNo

/-- `clientWindow.request`: the slot for a reqNo; `none` models the panics. -/
def clientWindow.request (cw : clientWindow) (reqNo : Nat) : Option clientReqNo :=
  if reqNo > cw.highWatermark then none
  else if reqNo < cw.lowWatermark then none
  else cw.reqNoList.find? (fun c => c.reqNo == reqNo)

/-- The payload behind the `strongRequest` pointer (`strongRequest.data`). -/
def clientReqNo.strongData (crn : clientReqNo) : Option Request :=
  match crn.strongRequest with
  | none => none
  | some d =>
    match alookup crn.digests d with
    | none => none
    | some cr => cr.data

/-- Well-formedness: the reqNos present in the window are exactly the
interval `[lowWatermark, highWatermark]`, in order (the `reqNoMap` domain
invariant of claim C9). -/
def wfWindow (cw : clientWindow) : Prop :=
  cw.reqNoList.map (fun c => c.reqNo) =
    List.range' cw.lowWatermark (cw.highWatermark + 1 - cw.lowWatermark)

instance (cw : clientWindow) : Decidable (wfWindow cw) := by
  unfold wfWindow; infer_instance

/-! ## The `clientWindows` aggregate -/

/-- The client-addressed messages handled by `clientWindows.filter` /
`applyMsg` (`pb.Msg_RequestAck`, `pb.Msg_ForwardRequest`,
`pb.Msg_FetchRequest`). -/
inductive Msg where
  | requestAck (clientId reqNo : Nat) (digest : Digest)
  | forwardRequest (request : Request) (digest : Digest)
  | fetchRequest (clientId reqNo : Nat) (digest : Digest)
deriving DecidableEq

inductive applyable where
  | past
  | current
  | future
deriving DecidableEq

/-- A node of the global ready list.  In Go each node holds a pointer to a
live `clientReqNo`; the embedding records the fields the ready-list code
reads (client, reqNo, and the `committed` value as read when the list is
traversed). -/
structure readyEntry where
  clientID : Nat
  reqNo : Nat
  committed : Option Nat
deriving DecidableEq

/-- `pb.ForwardRequest` as stored in QEntry batches (`Request` + `Digest`). -/
structure ForwardReq where
  request : Request
  digest : Digest
deriving DecidableEq

/-- The hash-request origin produced by `applyForwardRequest`
(`pb.HashResult_VerifyRequest`). -/
structure VerifyOrigin where
  source : Nat
  request : Request
  expectedDigest : Digest
deriving DecidableEq

/-- A `HashRequest` action (data to hash plus origin tag). -/
structure HashReq where
  data : List (List Nat)
  origin : VerifyOrigin
deriving DecidableEq

/-- The `Actions` fields produced by the client-window code: `send` entries
(target list + message, the `Actions.send` helper of the source) and hash
requests. -/
structure CActions where
  sends : List (List Nat × Msg)
  hash : List HashReq
deriving DecidableEq

def emptyCActions : CActions := { sends := [], hash := [] }

/-- Go's 8-byte big-endian `uint64ToBytes`. -/
def uint64ToBytes (n : Nat) : List Nat :=
  [n / 2 ^ 56 % 256, n / 2 ^ 48 % 256, n / 2 ^ 40 % 256, n / 2 ^ 32 % 256,
   n / 2 ^ 24 % 256, n / 2 ^ 16 % 256, n / 2 ^ 8 % 256, n % 256]

/-- `clientWindows`: all windows plus the global ready list (the chain
reachable from `readyHead`, whose first element is the permanent sentinel
anchor), the correct-request list, and the per-peer message buffers. -/
structure clientWindows where
  windows : List (Nat × clientWindow)
  clients : List Nat
  networkConfig : Option NetConfig
  readyList : List readyEntry
  correctList : List (Request × Digest)
  msgBuffers : List (Nat × List Msg)
  myId : Nat
deriving DecidableEq

/-- `clientWindows.filter`: classify a client message against the target
client's watermarks.  `FetchRequest` is hard-coded `current` in the source
(`TODO decide if this is actually current`). -/
def clientWindows.filter (cws : clientWindows) (msg : Msg) : applyable :=
  match msg with
  | .requestAck clientId reqNo _ =>
    match alookup cws.windows clientId with
    | none => .future
    | some cw =>
      if cw.lowWatermark > reqNo then .past
      else if cw.highWatermark < reqNo then .future
      else .current
  | .fetchRequest _ _ _ => .current
  | .forwardRequest request _ =>
    match alookup cws.windows request.clientId with
    | none => .future
    | some cw =>
      if cw.lowWatermark > request.reqNo then .past
      else if cw.highWatermark < request.reqNo then .future
      else .current

/-- The loop body of `clientWindows.advanceReady`, iterating
`i = nextReadyMark .. highWatermark`.  `fuel` counts the remaining
iterations (`highWatermark + 1 - i`); the caller supplies exactly that, so
`fuel = 0` is the loop exit `i > highWatermark`.  `none` models the
`dev sanity` panic on a missing `reqNoMap` entry. -/
def advanceFrom (cw : clientWindow) : Nat → Nat → List readyEntry →
    Option (Nat × List readyEntry)
  | 0, i, acc => some (i, acc)
  | fuel + 1, i, acc =>
    match cw.reqNoList.find? (fun c => c.reqNo == i) with
    | none => none
    | some crn =>
      if crn.strongData.isSome then
        advanceFrom cw fuel (i + 1)
          (acc ++ [{ clientID := crn.clientID, reqNo := crn.reqNo, committed := crn.committed }])
      else some (i, acc)

/-- `clientWindows.advanceReady` (the Go method takes the window pointer;
here the window is addressed by client id and written back): release
consecutive strong-and-known reqNos from `nextReadyMark` onto the global
ready list, advancing the mark past each. -/
def clientWindows.advanceReady (cws : clientWindows) (clientID : Nat) :
    Option clientWindows :=
  match alookup cws.windows clientID with
  | none => none
  | some cw =>
    match advanceFrom cw (cw.highWatermark + 1 - cw.nextReadyMark) cw.nextReadyMark [] with
    | none => none
    | some (m, entries) =>
      some { cws with
        readyList := cws.readyList ++ entries
        windows := ainsert cws.windows clientID { cw with nextReadyMark := m } }

/-- `clientWindows.checkReady`. -/
def clientWindows.checkReady (cws : clientWindows) (clientID : Nat) (ocrn : clientReqNo) :
    Option clientWindows :=
  match alookup cws.windows clientID with
  | none => none
  | some cw =>
    if ocrn.reqNo ≠ cw.nextReadyMark then some cws
    else
      match ocrn.strongRequest with
      | none => some cws
      | some _ =>
        if ocrn.strongData.isSome then cws.advanceReady clientID
        else some cws

/-- `clientWindows.ack`: dispatch to the window (panic if the client is
unknown), push a newly-correct request onto `correctList`, and `checkReady`. -/
def clientWindows.ack (cws : clientWindows) (source : NodeID)
    (clientId reqNo : Nat) (digest : Digest) : Option (clientRequest × clientWindows) :=
  match alookup cws.windows clientId with
  | none => none
  | some cw =>
    match cw.ack source reqNo digest with
    | none => none
    | some (cr, crn, newlyCorrectReq, cw') =>
      let cws' := { cws with
        windows := ainsert cws.windows clientId cw'
        correctList := match newlyCorrectReq with
          | none => cws.correctList
          | some r => cws.correctList ++ [(r, digest)] }
      match cws'.checkReady clientId crn with
      | none => none
      | some cws'' => some (cr, cws'')

/-- `clientWindows.allocate`. -/
def clientWindows.allocate (cws : clientWindows) (requestData : Request) (digest : Digest) :
    Option clientWindows :=
  match alookup cws.windows requestData.clientId with
  | none => none
  | some cw =>
    match cw.allocate requestData digest with
    | none => none
    | some (crn, newlyCorrectReq, cw') =>
      let cws' := { cws with
        windows := ainsert cws.windows requestData.clientId cw'
        correctList := match newlyCorrectReq with
          | none => cws.correctList
          | some r => cws.correctList ++ [(r, digest)] }
      cws'.checkReady requestData.clientId crn

/-- `clientWindows.replyFetchRequest`: unicast the stored request payload
back to the requester, or do nothing if the window, reqNo, digest, or
payload is unavailable. -/
def clientWindows.replyFetchRequest (cws : clientWindows) (source : NodeID)
    (clientID reqNo : Nat) (digest : Digest) : Option CActions :=
  match alookup cws.windows clientID with
  | none => some emptyCActions
  | some cw =>
    if ¬cw.inWatermarks reqNo then some emptyCActions
    else
      match cw.request reqNo with
      | none => none
      | some creq =>
        match alookup creq.digests digest with
        | none => some emptyCActions
        | some data =>
          match data.data with
          | none => some emptyCActions
          | some d =>
            some { sends := [([source], Msg.forwardRequest d digest)], hash := [] }

/-- `clientWindows.applyForwardRequest`: record the forwarder in the
agreement set (when the digest is known by ACK only) and request a hash
verification of the forwarded payload. -/
def clientWindows.applyForwardRequest (cws : clientWindows) (source : NodeID)
    (request : Request) (digest : Digest) : Option (clientWindows × CActions) :=
  match alookup cws.windows request.clientId with
  | none => some (cws, emptyCActions)
  | some cw =>
    match cw.request request.reqNo with
    | none => none
    | some cr =>
      match alookup cr.digests digest with
      | none => some (cws, emptyCActions)
      | some req =>
        if req.data.isSome then some (cws, emptyCActions)
        else
          let req' := { req with agreements := insert source req.agreements }
          let cr' := { cr with digests := ainsert cr.digests digest req' }
          let cw' := { cw with reqNoList := updateSlot cw.reqNoList request.reqNo cr' }
          some ({ cws with windows := ainsert cws.windows request.clientId cw' },
            { sends := []
              hash := [{ data := [uint64ToBytes request.clientId,
                                  uint64ToBytes request.reqNo, request.data]
                         origin := { source := source, request := request,
                                     expectedDigest := digest } }] })

/-- `clientWindows.applyMsg`. -/
def clientWindows.applyMsg (cws : clientWindows) (source : NodeID) (msg : Msg) :
    Option (clientWindows × CActions) :=
  match msg with
  | .requestAck clientId reqNo digest =>
    match cws.ack source clientId reqNo digest with
    | none => none
    | some (_, cws') => some (cws', emptyCActions)
  | .fetchRequest clientId reqNo digest =>
    match cws.replyFetchRequest source clientId reqNo digest with
    | none => none
    | some acts => some (cws, acts)
  | .forwardRequest request digest =>
    if source = cws.myId then some (cws, emptyCActions)
    else cws.applyForwardRequest source request digest

/-- Modelled from the spec: `msgBuffer.next` re-filters the buffered
messages in order, silently discarding the `past` ones, returning the
first `current` one (removed from the buffer) and retaining the `future`
ones.  (`msgBuffer` is not among the provided source files.) -/
def msgNext (f : Msg → applyable) : List Msg → Option (Msg × List Msg)
  | [] => none
  | m :: rest =>
    match f m with
    | .past => msgNext f rest
    | .current => some (m, rest)
    | .future =>
      match msgNext f rest with
      | none => none
      | some (m', rest') => some (m', m :: rest')

/-- The per-node drain loop of `clientWindows.garbageCollect`: repeatedly
take the next applicable buffered message and apply it (the returned
actions are discarded by the source).  `fuel` bounds the iterations; each
successful `msgNext` strictly shrinks the buffer, so `buf.length` suffices. -/
def drainNode : Nat → clientWindows → NodeID → List Msg →
    Option (clientWindows × List Msg)
  | 0, cws, _, buf => some (cws, buf)
  | fuel + 1, cws, nodeID, buf =>
    match msgNext cws.filter buf with
    | none => some (cws, buf)
    | some (m, rest) =>
      match cws.applyMsg nodeID m with
      | none => none
      | some (cws', _) => drainNode fuel cws' nodeID rest

/-- Drain every node's buffer in turn. -/
def drainAll : List Nat → clientWindows → Option clientWindows
  | [], cws => some cws
  | n :: rest, cws =>
    match alookup cws.msgBuffers n with
    | none => none
    | some buf =>
      match drainNode buf.length cws n buf with
      | none => none
      | some (cws', buf') =>
        drainAll rest { cws' with msgBuffers := ainsert cws'.msgBuffers n buf' }

/-- A ready-list entry is removed when `committed != nil && *committed <= seqNo`. -/
def readyRemovable (seqNo : Nat) (e : readyEntry) : Bool :=
  match e.committed with
  | none => false
  | some c => c ≤ seqNo

/-- The ready-list garbage-collection loop: `el` is the node whose `next`
is under examination; a removable successor is unlinked unless it is the
tail (`do not garbage collect the tail of the log`). -/
def readyGCGo (seqNo : Nat) : readyEntry → List readyEntry → List readyEntry
  | el, [] => [el]
  | el, n :: rest =>
    if readyRemovable seqNo n then
      match rest with
      | [] => [el, n]
      | m :: rest' => readyGCGo seqNo el (m :: rest')
    else el :: readyGCGo seqNo n rest

/-- Per-client window GC over `cws.clients` (panic when a listed client has
no window). -/
def gcWindowsLoop (seqNo : Nat) : List Nat → List (Nat × clientWindow) →
    Option (List (Nat × clientWindow))
  | [], ws => some ws
  | c :: rest, ws =>
    match alookup ws c with
    | none => none
    | some cw => gcWindowsLoop seqNo rest (ainsert ws c (cw.garbageCollect seqNo))

/-- `clientWindows.garbageCollect`: GC every client window, sweep the
ready list (sentinel head never examined, tail never unlinked), then
re-drain every peer's message buffer. -/
def clientWindows.garbageCollect (cws : clientWindows) (seqNo : Nat) :
    Option clientWindows :=
  match gcWindowsLoop seqNo cws.clients cws.windows with
  | none => none
  | some ws =>
    let cws1 := { cws with windows := ws }
    let cws2 := { cws1 with
      readyList := match cws1.readyList with
        | [] => []
        | h :: t => readyGCGo seqNo h t }
    match cws2.networkConfig with
    | none => none
    | some cfg => drainAll cfg.nodes cws2

/-! ## WAL replay (`newClientWindows`) -/

/-- `pb.NetworkState_Client`. -/
structure NetClient where
  id : Nat
  bucketLowWatermarks : List Nat
deriving DecidableEq

/-- `pb.NetworkState` as carried by a CEntry. -/
structure NetworkState where
  config : NetConfig
  clients : List NetClient
deriving DecidableEq

/-- The persistent WAL entries replayed by `newClientWindows`. -/
inductive PersistEntry where
  | centry (networkState : NetworkState)
  | qentry (digest : Digest) (requests : List ForwardReq)
  | pentry (digest : Digest)
deriving DecidableEq

/-- `clientWindowWidth` (`XXX this should be configurable`). -/
def clientWindowWidth : Nat := 100

/-- The anchor's `committed` value: `math.MaxUint64`. -/
def maxSeq : Nat := 2 ^ 64 - 1

/-- Minimum of a client's bucket low watermarks (`none` models the index
panic on an empty list). -/
def minBLW : List Nat → Option Nat
  | [] => none
  | x :: xs => some (xs.foldl min x)

/-- Ordered insert of a client id (Go appends and re-sorts; on an
already-sorted list this is the same result). -/
def insertSortedNat (x : Nat) : List Nat → List Nat
  | [] => [x]
  | y :: ys => if x ≤ y then x :: y :: ys else y :: insertSortedNat x ys

/-- `clientWindows.insert`. -/
def clientWindows.insert (cws : clientWindows) (clientID : Nat) (cw : clientWindow) :
    clientWindows :=
  { cws with
    windows := ainsert cws.windows clientID cw
    clients := insertSortedNat clientID cws.clients }

/-- Create the windows listed in a CEntry's client list. -/
def insertClients (cfg : NetConfig) : List NetClient → clientWindows →
    Option clientWindows
  | [], cws => some cws
  | client :: rest, cws =>
    match minBLW client.bucketLowWatermarks with
    | none => none
    | some low =>
      insertClients cfg rest
        (cws.insert client.id (newClientWindow client.id low (low + clientWindowWidth) cfg))

/-- CEntry replay: the first CEntry installs the config and creates the
client windows; later ones are skipped. -/
def applyCEntry (cws : clientWindows) (ns : NetworkState) : Option clientWindows :=
  match cws.networkConfig with
  | some _ => some cws
  | none => insertClients ns.config ns.clients { cws with networkConfig := some ns.config }

/-- PEntry replay for one batched request: allocate `(clientId, reqNo,
digest)` into the client's window (`clientWindow.allocate` directly — no
`correctList` push, no `checkReady`) and point `strongRequest` at that
digest's entry. -/
def allocOne (cws : clientWindows) (fr : ForwardReq) : Option clientWindows :=
  match alookup cws.windows fr.request.clientId with
  | none => none
  | some cw =>
    match cw.allocate fr.request fr.digest with
    | none => none
    | some (crn, _, cw') =>
      let crn' := { crn with strongRequest := some fr.digest }
      let cw'' := { cw' with reqNoList := updateSlot cw'.reqNoList crn.reqNo crn' }
      some { cws with windows := ainsert cws.windows fr.request.clientId cw'' }

def allocList : clientWindows → List ForwardReq → Option clientWindows
  | cws, [] => some cws
  | cws, fr :: rest =>
    match allocOne cws fr with
    | none => none
    | some cws' => allocList cws' rest

/-- One step of the WAL replay loop of `newClientWindows`. -/
def applyPersistEntry (st : clientWindows × List (Digest × List ForwardReq)) :
    PersistEntry → Option (clientWindows × List (Digest × List ForwardReq))
  | .centry ns =>
    match applyCEntry st.1 ns with
    | none => none
    | some cws => some (cws, st.2)
  | .qentry d reqs => some (st.1, ainsert st.2 d reqs)
  | .pentry d =>
    match alookup st.2 d with
    | none => none
    | some reqs =>
      match allocList st.1 reqs with
      | none => none
      | some cws => some (cws, st.2)

def replayLoop : (clientWindows × List (Digest × List ForwardReq)) →
    List PersistEntry → Option (clientWindows × List (Digest × List ForwardReq))
  | st, [] => some st
  | st, e :: rest =>
    match applyPersistEntry st e with
    | none => none
    | some st' => replayLoop st' rest

/-- The final loop of `newClientWindows`: advance the ready pointer of
every client. -/
def advanceAll : List Nat → clientWindows → Option clientWindows
  | [], cws => some cws
  | c :: rest, cws =>
    match cws.advanceReady c with
    | none => none
    | some cws' => advanceAll rest cws'

/-- The permanent ready-list anchor: a `clientReqNo` whose only set field
is `committed = math.MaxUint64`, so it is never garbage collected. -/
def anchorEntry : readyEntry := { clientID := 0, reqNo := 0, committed := some maxSeq }

/-- The `clientWindows` value built at the top of `newClientWindows`,
before replay. -/
def initCWS (myId : Nat) : clientWindows :=
  { windows := [], clients := [], networkConfig := none, readyList := [anchorEntry],
    correctList := [], msgBuffers := [], myId := myId }

/-- `newClientWindows`: replay the WAL, advance every client's ready
pointer, and set up an empty message buffer per peer. -/
def newClientWindows (myId : Nat) (log : List PersistEntry) : Option clientWindows :=
  match replayLoop (initCWS myId, []) log with
  | none => none
  | some (cws, _) =>
    match advanceAll cws.clients cws with
    | none => none
    | some cws' =>
      match cws'.networkConfig with
      | none => none
      | some cfg => some { cws' with msgBuffers := cfg.nodes.map (fun n => (n, [])) }

/-! ## The serial processor (`src/processor.go`)

The processor executes an `Actions` batch against the collaborator
interfaces (`RequestStore`, `WAL`, `Link`, `Node.Step`, `Log`).  The
embedding records the sequence of collaborator calls as an event trace and
models a Go `panic` as halting the trace (`Bool` flag `true`).  The
collaborators' outcomes are an environment of error flags indexed by call
position; their returned payloads do not influence control flow (other
than errors) and are not modelled. -/

/-- One collaborator call made by the serial processor. -/
inductive PEvent where
  | store (idx : Nat)
  | rsSync
  | walAppend (idx : Nat)
  | walSync
  | linkSend (target : Nat)
  | selfStep
  | rsGet (idx : Nat)
  | logApply
  | logSnap
  | hashEv
deriving DecidableEq

/-- The collaborator environment: which calls return errors, and this
node's id (`sp.Node.Config.ID`). -/
structure PEnv where
  myId : Nat
  storeErr : Nat → Bool
  rsSyncErr : Bool
  appendErr : Nat → Bool
  walSyncErr : Bool
  getErr : Nat → Bool

/-- A `Send` action: target node ids (the message payload does not affect
the processor's control flow). -/
structure SendAction where
  targets : List Nat
deriving DecidableEq

/-- A `Forward` action: target node ids for a re-fetched request. -/
structure ForwardAction where
  targets : List Nat
deriving DecidableEq

/-- A `Commit` action: whether it carries a checkpoint. -/
structure CommitAction where
  checkpoint : Bool
deriving DecidableEq

/-- Modelled from the spec: the `Actions` aggregate fields consumed by the
serial processor (`StoreRequests`, `Persist`, `Send`, `ForwardRequests`,
`Hash`, `Commits`).  The provided `src/actions.go` is an older revision of
the type that lacks these fields, so they are taken from the spec's
Actions aggregate and the processor's own usage; the entries are opaque
counters since the processor only iterates over them. -/
structure ProcActions where
  storeRequests : List Nat
  persist : List Nat
  send : List SendAction
  forwardRequests : List ForwardAction
  hash : List Nat
  commits : List CommitAction
deriving DecidableEq

/-- The `WAL.Append` loop of `persistSerially`: the call that returns an
error is still made (its event is recorded) and then the process panics. -/
def appendLoop (env : PEnv) : List Nat → Nat → List PEvent × Bool
  | [], _ => ([], false)
  | _ :: rest, i =>
    if env.appendErr i then ([.walAppend i], true)
    else
      let (t, h) := appendLoop env rest (i + 1)
      (.walAppend i :: t, h)

/-- `persistSerially`: store every request (the `Store` return value is
discarded by the source), sync the request store, append every persistent
entry, sync the WAL; any error from `Sync`/`Append`/`Sync` panics. -/
def persistSerially (env : PEnv) (a : ProcActions) : List PEvent × Bool :=
  let t0 := (List.range a.storeRequests.length).map PEvent.store
  if env.rsSyncErr then (t0 ++ [.rsSync], true)
  else
    let (t1, h1) := appendLoop env a.persist 0
    if h1 then (t0 ++ [.rsSync] ++ t1, true)
    else (t0 ++ [.rsSync] ++ t1 ++ [.walSync], env.walSyncErr)

/-- Sends of one `Send` action: `Step` to self, `Link.Send` otherwise. -/
def sendEvents (env : PEnv) (s : SendAction) : List PEvent :=
  s.targets.map (fun t => if t = env.myId then PEvent.selfStep else PEvent.linkSend t)

/-- The `ForwardRequests` loop of `transmitSerially`: `RequestStore.Get`
then the sends; a `Get` error panics. -/
def forwardLoop (env : PEnv) : List ForwardAction → Nat → List PEvent × Bool
  | [], _ => ([], false)
  | f :: rest, i =>
    if env.getErr i then ([.rsGet i], true)
    else
      let evs := PEvent.rsGet i ::
        f.targets.map (fun t => if t = env.myId then PEvent.selfStep else PEvent.linkSend t)
      let (t, h) := forwardLoop env rest (i + 1)
      (evs ++ t, h)

/-- `transmitSerially`. -/
def transmitSerially (env : PEnv) (a : ProcActions) : List PEvent × Bool :=
  let t0 := (a.send.map (sendEvents env)).flatten
  let (t1, h) := forwardLoop env a.forwardRequests 0
  (t0 ++ t1, h)

/-- `applySerially`: hash every request, then apply every commit to the
application log, snapshotting after checkpointed commits. -/
def applySerially (a : ProcActions) : List PEvent :=
  a.hash.map (fun _ => PEvent.hashEv) ++
    (a.commits.map (fun c =>
      if c.checkpoint then [PEvent.logApply, PEvent.logSnap] else [PEvent.logApply])).flatten

/-- `ProcessSerially`: persist, then transmit, then apply; a panic in an
earlier phase prevents the later phases. -/
def ProcessSerially (env : PEnv) (a : ProcActions) : List PEvent × Bool :=
  let (t1, h1) := persistSerially env a
  if h1 then (t1, true)
  else
    let (t2, h2) := transmitSerially env a
    if h2 then (t1 ++ t2, true)
    else (t1 ++ t2 ++ applySerially a, false)

/-- Persistence-side collaborator calls. -/
def isPersistEv : PEvent → Bool
  | .store _ => true
  | .rsSync => true
  | .walAppend _ => true
  | .walSync => true
  | _ => false

/-- Network transmissions (including self-delivery via `Node.Step`). -/
def isTransmitEv : PEvent → Bool
  | .linkSend _ => true
  | .selfStep => true
  | _ => false

/-- Commit application to the application log. -/
def isApplyEv : PEvent → Bool
  | .logApply => true
  | _ => false

/-- Execution phase of a collaborator call in `ProcessSerially`:
persistence (0), transmission (1), application (2). -/
def evPhase : PEvent → Nat
  | .store _ => 0
  | .rsSync => 0
  | .walAppend _ => 0
  | .walSync => 0
  | .linkSend _ => 1
  | .selfStep => 1
  | .rsGet _ => 1
  | .logApply => 2
  | .logSnap => 2
  | .hashEv => 2

/-! ## Spec-side vocabulary used in the claim statements -/

/-- The slot for a reqNo, as found through `reqNoMap` (pre-state view). -/
def preCrn (cw : clientWindow) (reqNo : Nat) : Option clientReqNo :=
  cw.reqNoList.find? (fun c => c.reqNo == reqNo)

/-- The `clientRequest` recorded for a reqNo/digest before a call. -/
def preEntry (cw : clientWindow) (reqNo : Nat) (digest : Digest) : Option clientRequest :=
  match preCrn cw reqNo with
  | none => none
  | some crn => alookup crn.digests digest

/-- The agreement set of a reqNo's digest before a call (empty when the
digest has not been seen). -/
def preAgreements (cw : clientWindow) (reqNo : Nat) (digest : Digest) : Finset NodeID :=
  match preEntry cw reqNo digest with
  | none => ∅
  | some cr => cr.agreements

/-- The payload known for a reqNo/digest before a call. -/
def preData (cw : clientWindow) (reqNo : Nat) (digest : Digest) : Option Request :=
  match preEntry cw reqNo digest with
  | none => none
  | some cr => cr.data

/-- Modelled from the spec: when a sequence commits, the client reqNos of
its batch are marked `committed = seqno` (the sequence state machine that
performs this write is not among the provided source files). -/
def markCommitted (cw : clientWindow) (reqNo seqNo : Nat) : clientWindow :=
  { cw with reqNoList := cw.reqNoList.map (fun c =>
      if c.reqNo == reqNo then { c with committed := some seqNo } else c) }

/-- Classification by the target client's watermarks, as the claim words
it: `past` below the low watermark, `future` above the high watermark or
when the client is unknown, `current` otherwise. -/
def watermarkClassify (cws : clientWindows) (clientId reqNo : Nat) : applyable :=
  match alookup cws.windows clientId with
  | none => .future
  | some cw =>
    if cw.lowWatermark > reqNo then .past
    else if cw.highWatermark < reqNo then .future
    else .current

/-- The amended claim C4 as a function: `RequestAck` and `ForwardRequest`
are classified by the target client's watermarks; `FetchRequest` is always
`current`. -/
def filterSpecModel (cws : clientWindows) (msg : Msg) : applyable :=
  match msg with
  | .requestAck clientId reqNo _ => watermarkClassify cws clientId reqNo
  | .forwardRequest request _ => watermarkClassify cws request.clientId request.reqNo
  | .fetchRequest _ _ _ => .current

/-- The slot stored for `(clientId, reqNo)`: the client's window looked up
in the windows map, then the reqNo looked up in it. -/
def slotAt (cws : clientWindows) (clientId reqNo : Nat) : Option clientReqNo :=
  match alookup cws.windows clientId with
  | none => none
  | some cw => cw.reqNoList.find? (fun c => c.reqNo == reqNo)

/-- Post-state of a replayed PEntry request: the digest's `clientRequest`
holds the payload and the slot's `strongRequest` points at it. -/
def allocatedStrong (cws : clientWindows) (fr : ForwardReq) : Prop :=
  ∃ crn cr,
    slotAt cws fr.request.clientId fr.request.reqNo = some crn ∧
    crn.strongRequest = some fr.digest ∧
    alookup crn.digests fr.digest = some cr ∧
    cr.data = some fr.request

/-- The client's ready pointer is fully advanced: either past the high
watermark, or parked on a slot that is not yet strong-with-data. -/
def fixAt (cws : clientWindows) (clientID : Nat) : Prop :=
  ∃ cw, alookup cws.windows clientID = some cw ∧
    (cw.nextReadyMark ≤ cw.highWatermark →
      ∃ crn, cw.reqNoList.find? (fun c => c.reqNo == cw.nextReadyMark) = some crn ∧
        crn.strongData = none)

/-- Distinctness of two batched requests' (client, reqNo) addresses. -/
def distinctAddr (a b : ForwardReq) : Prop :=
  a.request.clientId ≠ b.request.clientId ∨ a.request.reqNo ≠ b.request.reqNo

instance (a b : ForwardReq) : Decidable (distinctAddr a b) := by
  unfold distinctAddr; infer_instance

/-- Every window stored at `cid` (there is at most one) is well formed. -/
def wfAt (cws : clientWindows) (cid : Nat) : Prop :=
  ∀ cw, alookup cws.windows cid = some cw → wfWindow cw

instance (cws : clientWindows) (cid : Nat) : Decidable (wfAt cws cid) :=
  match h : alookup cws.windows cid with
  | none => isTrue (by intro cw hc; rw [h] at hc; cases hc)
  | some cw =>
    if hw : wfWindow cw then
      isTrue (by intro cw' hc; rw [h] at hc; cases hc; exact hw)
    else isFalse (fun hall => hw (hall cw h))

/-! ## Concrete instances used by the witnesses and counterexamples -/

/-- A 4-node network (`f = 1`, `someCorrectQuorum = 2`,
`intersectionQuorum = 3`). -/
def cfg4 : NetConfig := { nodes := [0, 1, 2, 3], numberOfBuckets := 1 }

/-- A 1-node network. -/
def cfg1 : NetConfig := { nodes := [0], numberOfBuckets := 1 }

/-- C1 failing input: a fresh two-slot window whose reqNo 0 has committed
at seqNo 1 without ever becoming ready. -/
def win1 : clientWindow := markCommitted (newClientWindow 9 0 1 cfg4) 0 1

/-- C2 witness input: a fresh window for client 7 over `[0, 5]`. -/
def cw2 : clientWindow := newClientWindow 7 0 5 cfg4

/-- C3 witness window: reqNo 0 is strong with known data, reqNo 1 is not. -/
def win3 : clientWindow :=
  { clientID := 1
    nextReadyMark := 0
    lowWatermark := 0
    highWatermark := 2
    reqNoList :=
      [{ clientID := 1, reqNo := 0
         digests := [([4], { digest := [4], data := some { clientId := 1, reqNo := 0, data := [5] }
                             agreements := {0, 1, 2} })]
         committed := none, strongRequest := some [4] },
       { clientID := 1, reqNo := 1, digests := [], committed := none, strongRequest := none },
       { clientID := 1, reqNo := 2, digests := [], committed := none, strongRequest := none }]
    networkConfig := cfg4 }

def cws3 : clientWindows :=
  { windows := [(1, win3)], clients := [1], networkConfig := some cfg4,
    readyList := [anchorEntry], correctList := [], msgBuffers := [], myId := 0 }

/-- C4 counterexample input: one known client with watermarks `[5, 10]`. -/
def win4 : clientWindow := newClientWindow 1 5 10 cfg4

def cws4 : clientWindows :=
  { windows := [(1, win4)], clients := [1], networkConfig := some cfg4,
    readyList := [anchorEntry], correctList := [], msgBuffers := [], myId := 0 }

/-- C5 counterexample input: the ready list holds the anchor and one entry
committed at seqNo 3; no clients, one peer with an empty buffer. -/
def cws5 : clientWindows :=
  { windows := [], clients := [], networkConfig := some cfg1,
    readyList := [anchorEntry, { clientID := 1, reqNo := 0, committed := some 3 }],
    correctList := [], msgBuffers := [(0, [])], myId := 0 }

/-- C6 witness log: a CEntry (client 3, bucket lows `[2, 5]`), a QEntry
with one request, and the matching PEntry. -/
def batch6 : List ForwardReq :=
  [{ request := { clientId := 3, reqNo := 4, data := [1, 2] }, digest := [8] }]

def log6pre : List PersistEntry :=
  [.centry { config := cfg4
             clients := [{ id := 3, bucketLowWatermarks := [2, 5] }] },
   .qentry [9] batch6]

def pe6 : PersistEntry := .pentry [9]

def log6 : List PersistEntry := log6pre ++ [pe6]

def st6 : clientWindows × List (Digest × List ForwardReq) :=
  (replayLoop (initCWS 0, []) log6pre).get (by decide)

def st6' : clientWindows × List (Digest × List ForwardReq) :=
  (applyPersistEntry st6 pe6).get (by decide)

def cws6 : clientWindows := (newClientWindows 0 log6).get (by decide)

/-- C7 counterexample environment: every `RequestStore.Store` call returns
an error; everything else succeeds. -/
def envStoreErr : PEnv :=
  { myId := 0, storeErr := fun _ => true, rsSyncErr := false,
    appendErr := fun _ => false, walSyncErr := false, getErr := fun _ => false }

def acts7 : ProcActions :=
  { storeRequests := [0], persist := [0], send := [], forwardRequests := [],
    hash := [], commits := [] }

/-- C8 witness environment: no collaborator errors. -/
def env8 : PEnv :=
  { myId := 0, storeErr := fun _ => false, rsSyncErr := false,
    appendErr := fun _ => false, walSyncErr := false, getErr := fun _ => false }

def acts8 : ProcActions :=
  { storeRequests := [], persist := [7], send := [{ targets := [5] }],
    forwardRequests := [], hash := [], commits := [{ checkpoint := false }] }

/-- C10 witness input: client 1's window holds a payload for reqNo 1 under
digest `[7]`. -/
def win10 : clientWindow :=
  { clientID := 1
    nextReadyMark := 0
    lowWatermark := 0
    highWatermark := 2
    reqNoList :=
      [{ clientID := 1, reqNo := 0, digests := [], committed := none, strongRequest := none },
       { clientID := 1, reqNo := 1
         digests := [([7], { digest := [7], data := some { clientId := 1, reqNo := 1, data := [6] }
                             agreements := ∅ })]
         committed := none, strongRequest := none },
       { clientID := 1, reqNo := 2, digests := [], committed := none, strongRequest := none }]
    networkConfig := cfg4 }

def cws10 : clientWindows :=
  { windows := [(1, win10)], clients := [1], networkConfig := some cfg4,
    readyList := [anchorEntry], correctList := [], msgBuffers := [], myId := 0 }

/-! ## Basic lemmas about the association-list and slot operations -/

lemma ainsert_cons_eq {α β : Type} [DecidableEq α] (rest : List (α × β)) (k : α) (b v : β) :
    ainsert ((k, b) :: rest) k v = (k, v) :: rest := by
  simp [ainsert]

lemma ainsert_cons_ne {α β : Type} [DecidableEq α] (rest : List (α × β)) (a k : α) (b : β)
    (v : β) (h : a ≠ k) : ainsert ((a, b) :: rest) k v = (a, b) :: ainsert rest k v := by
  simp [ainsert, h]

lemma alookup_ainsert {α β : Type} [DecidableEq α] (l : List (α × β)) (k : α) (v : β)
    (k' : α) : alookup (ainsert l k v) k' = if k' = k then some v else alookup l k' := by
  induction l with
  | nil =>
    by_cases h : k' = k
    · subst h; simp [ainsert, alookup]
    · simp [ainsert, alookup, h, Ne.symm h]
  | cons p rest ih =>
    obtain ⟨a, b⟩ := p
    by_cases hak : a = k
    · subst hak
      rw [ainsert_cons_eq]
      by_cases h : k' = a
      · subst h; simp [alookup]
      · simp [alookup, h, Ne.symm h]
    · rw [ainsert_cons_ne rest a k b v hak]
      by_cases h : a = k'
      · subst h
        simp [alookup, hak]
      · simp [alookup, h, ih]

lemma alookup_ainsert_self {α β : Type} [DecidableEq α] (l : List (α × β)) (k : α) (v : β) :
    alookup (ainsert l k v) k = some v := by
  rw [alookup_ainsert]; simp

lemma alookup_ainsert_ne {α β : Type} [DecidableEq α] (l : List (α × β)) (k : α) (v : β)
    (k' : α) (h : k' ≠ k) : alookup (ainsert l k v) k' = alookup l k' := by
  rw [alookup_ainsert]; simp [h]

lemma updateSlot_cons_hit (rest : List clientReqNo) (c x : clientReqNo) (r : Nat)
    (h : c.reqNo = r) : updateSlot (c :: rest) r x = x :: updateSlot rest r x := by
  simp [updateSlot, h]

lemma updateSlot_cons_miss (rest : List clientReqNo) (c x : clientReqNo) (r : Nat)
    (h : ¬c.reqNo = r) : updateSlot (c :: rest) r x = c :: updateSlot rest r x := by
  simp [updateSlot, h]

lemma find?_updateSlot_self (l : List clientReqNo) (r : Nat) (x : clientReqNo)
    (hx : x.reqNo = r) (hl : (l.find? (fun c => c.reqNo == r)).isSome) :
    (updateSlot l r x).find? (fun c => c.reqNo == r) = some x := by
  induction l with
  | nil => simp at hl
  | cons c rest ih =>
    by_cases h : c.reqNo = r
    · rw [updateSlot_cons_hit rest c x r h]
      exact List.find?_cons_of_pos _ (by simp [hx])
    · rw [List.find?_cons_of_neg _ (by simp [h])] at hl
      rw [updateSlot_cons_miss rest c x r h, List.find?_cons_of_neg _ (by simp [h])]
      exact ih hl

lemma find?_updateSlot_ne (l : List clientReqNo) (r : Nat) (x : clientReqNo)
    (hx : x.reqNo = r) (r' : Nat) (h : r' ≠ r) :
    (updateSlot l r x).find? (fun c => c.reqNo == r') = l.find? (fun c => c.reqNo == r') := by
  induction l with
  | nil => simp [updateSlot]
  | cons c rest ih =>
    by_cases hc : c.reqNo = r
    · rw [updateSlot_cons_hit rest c x r hc]
      rw [List.find?_cons_of_neg _ (by simp [hx, Ne.symm h]),
        List.find?_cons_of_neg _ (by simp [hc, Ne.symm h])]
      exact ih
    · rw [updateSlot_cons_miss rest c x r hc]
      by_cases hcr : c.reqNo = r'
      · rw [List.find?_cons_of_pos _ (by simp [hcr]), List.find?_cons_of_pos _ (by simp [hcr])]
      · rw [List.find?_cons_of_neg _ (by simp [hcr]), List.find?_cons_of_neg _ (by simp [hcr])]
        exact ih

lemma map_reqNo_updateSlot (l : List clientReqNo) (r : Nat) (x : clientReqNo)
    (hx : x.reqNo = r) :
    (updateSlot l r x).map (fun c => c.reqNo) = l.map (fun c => c.reqNo) := by
  induction l with
  | nil => simp [updateSlot]
  | cons c rest ih =>
    by_cases hc : c.reqNo = r
    · rw [updateSlot_cons_hit rest c x r hc]
      simp [ih, hx, hc]
    · rw [updateSlot_cons_miss rest c x r hc]
      simp [ih]

lemma wf_find (cw : clientWindow) (hwf : wfWindow cw) (r : Nat)
    (hlo : cw.lowWatermark ≤ r) (hhi : r ≤ cw.highWatermark) :
    ∃ crn, cw.reqNoList.find? (fun c => c.reqNo == r) = some crn ∧ crn.reqNo = r := by
  have hmem : r ∈ cw.reqNoList.map (fun c => c.reqNo) := by
    rw [hwf, List.mem_range'_1]
    omega
  obtain ⟨crn, hcrn, hr⟩ := List.mem_map.mp hmem
  have hsome : (cw.reqNoList.find? (fun c => c.reqNo == r)).isSome := by
    rw [List.find?_isSome]
    exact ⟨crn, hcrn, by simp [hr]⟩
  obtain ⟨crn', hfind⟩ := Option.isSome_iff_exists.mp hsome
  refine ⟨crn', hfind, ?_⟩
  have := List.find?_some hfind
  simpa using this

lemma takeWhile_length_le' {α : Type} (p : α → Bool) (l : List α) :
    (l.takeWhile p).length ≤ l.length := by
  have h := List.takeWhile_append_dropWhile p l
  have h2 := congrArg List.length h
  simp only [List.length_append] at h2
  omega

lemma drop_range'_1 (a n k : Nat) : (List.range' a n).drop k = List.range' (a + k) (n - k) := by
  induction k generalizing a n with
  | zero => simp
  | succ k ih =>
    cases n with
    | zero => simp
    | succ n =>
      have h1 : n + 1 - (k + 1) = n - k := by omega
      have h2 : a + (k + 1) = a + 1 + k := by omega
      rw [List.range'_succ, List.drop_succ_cons, h1, h2, ih (a + 1) n]

lemma range'_append_1 (s m n : Nat) :
    List.range' s m ++ List.range' (s + m) n = List.range' s (m + n) := by
  have h := List.range'_append s m n 1
  simp only [Nat.one_mul, Nat.mul_one] at h
  rw [Nat.add_comm n m] at h
  simpa using h

lemma range'_gc_eq (low high k : Nat) (hk : k ≤ high + 1 - low) :
    List.range' (low + k) (high + 1 - low - k) ++ List.range' (high + 1) k =
    List.range' (low + k) (high + 1 - low) := by
  obtain ⟨m, hm⟩ : ∃ m, m = high + 1 - low - k := ⟨_, rfl⟩
  obtain ⟨n, hn⟩ : ∃ n, n = high + 1 - low := ⟨_, rfl⟩
  rw [← hm, ← hn]
  by_cases hdeg : low ≤ high + 1
  · have h1 : high + 1 = low + k + m := by omega
    have h2 : n = m + k := by omega
    rw [h1, range'_append_1, h2]
  · have hk0 : k = 0 := by omega
    have hm0 : m = 0 := by omega
    have hn0 : n = 0 := by omega
    subst hk0
    rw [hm0, hn0]
    simp

lemma map_dropWhile_eq_drop {α β : Type} (p : α → Bool) (l : List α) (f : α → β) :
    (l.dropWhile p).map f = (l.map f).drop (l.takeWhile p).length := by
  have hsplit := List.takeWhile_append_dropWhile p l
  have hmap : (l.takeWhile p).map f ++ (l.dropWhile p).map f = l.map f := by
    rw [← List.map_append, hsplit]
  have hlen : ((l.takeWhile p).map f).length = (l.takeWhile p).length := by
    simp
  calc (l.dropWhile p).map f
      = ((l.takeWhile p).map f ++ (l.dropWhile p).map f).drop ((l.takeWhile p).map f).length :=
        (List.drop_left _ _).symm
    _ = (l.map f).drop (l.takeWhile p).length := by rw [hmap, hlen]

/-- `garbageCollect` preserves the reqNo-domain invariant: the surviving
suffix covers `[low + removed, high]` and the freshly appended slots cover
`[high + 1, high + removed]`. -/
lemma wf_garbageCollect (cw : clientWindow) (s : Nat) (hwf : wfWindow cw) :
    wfWindow (cw.garbageCollect s) := by
  unfold wfWindow at hwf ⊢
  unfold clientWindow.garbageCollect
  simp only [List.map_append]
  have hk : (cw.reqNoList.takeWhile (crnRemovable s)).length ≤
      cw.highWatermark + 1 - cw.lowWatermark := by
    have h := takeWhile_length_le' (crnRemovable s) cw.reqNoList
    have hlen : cw.reqNoList.length = cw.highWatermark + 1 - cw.lowWatermark := by
      have := congrArg List.length hwf
      simpa using this
    omega
  rw [map_dropWhile_eq_drop, hwf, drop_range'_1]
  have hnew : ((List.range (cw.reqNoList.takeWhile (crnRemovable s)).length).map (fun i =>
      ({ clientID := cw.clientID, reqNo := cw.highWatermark + 1 + i, digests := [],
         committed := none, strongRequest := none } : clientReqNo))).map (fun c => c.reqNo) =
      List.range' (cw.highWatermark + 1) (cw.reqNoList.takeWhile (crnRemovable s)).length := by
    rw [List.map_map, List.range'_eq_map_range]
    apply List.map_congr_left
    intro i _
    simp [Nat.add_comm]
  rw [hnew]
  have hw : cw.highWatermark + (cw.reqNoList.takeWhile (crnRemovable s)).length + 1 -
      (cw.lowWatermark + (cw.reqNoList.takeWhile (crnRemovable s)).length) =
      cw.highWatermark + 1 - cw.lowWatermark := by
    omega
  rw [hw]
  exact range'_gc_eq cw.lowWatermark cw.highWatermark _ hk

lemma wf_newClientWindow (cid low high : Nat) (cfg : NetConfig) :
    wfWindow (newClientWindow cid low high cfg) := by
  unfold wfWindow newClientWindow
  rw [List.map_map, List.range'_eq_map_range]
  apply List.map_congr_left
  intro i _
  simp [Nat.add_comm]

lemma wf_ack (cw : clientWindow) (source reqNo : Nat) (digest : Digest)
    (out : clientRequest × clientReqNo × Option Request × clientWindow)
    (hwf : wfWindow cw) (h : cw.ack source reqNo digest = some out) :
    wfWindow out.2.2.2 := by
  unfold clientWindow.ack at h
  split_ifs at h
  rcases hfind : cw.reqNoList.find? (fun c => c.reqNo == reqNo) with _ | crn
  · rw [hfind] at h
    cases h
  · rw [hfind] at h
    injection h with h
    subst h
    have hr : crn.reqNo = reqNo := by
      have := List.find?_some hfind
      simpa using this
    have hgen : ∀ x : clientReqNo, x.reqNo = reqNo →
        wfWindow { cw with reqNoList := updateSlot cw.reqNoList reqNo x } := by
      intro x hx
      unfold wfWindow
      rw [map_reqNo_updateSlot _ _ _ hx]
      exact hwf
    exact hgen _ hr

lemma wf_allocate (cw : clientWindow) (req : Request) (digest : Digest)
    (out : clientReqNo × Option Request × clientWindow)
    (hwf : wfWindow cw) (h : cw.allocate req digest = some out) :
    wfWindow out.2.2 := by
  unfold clientWindow.allocate at h
  split_ifs at h
  rcases hfind : cw.reqNoList.find? (fun c => c.reqNo == req.reqNo) with _ | crn
  · rw [hfind] at h
    cases h
  · rw [hfind] at h
    injection h with h
    subst h
    have hr : crn.reqNo = req.reqNo := by
      have := List.find?_some hfind
      simpa using this
    have hgen : ∀ x : clientReqNo, x.reqNo = req.reqNo →
        wfWindow { cw with reqNoList := updateSlot cw.reqNoList req.reqNo x } := by
      intro x hx
      unfold wfWindow
      rw [map_reqNo_updateSlot _ _ _ hx]
      exact hwf
    exact hgen _ hr

lemma ack_isSome (cw : clientWindow) (source reqNo : Nat) (digest : Digest)
    (hwf : wfWindow cw) (hin : cw.inWatermarks reqNo = true) :
    (cw.ack source reqNo digest).isSome = true := by
  simp only [clientWindow.inWatermarks, Bool.and_eq_true, decide_eq_true_eq] at hin
  obtain ⟨hhi, hlo⟩ := hin
  obtain ⟨crn, hfind, _⟩ := wf_find cw hwf reqNo hlo hhi
  simp [clientWindow.ack, if_neg (by omega : ¬reqNo > cw.highWatermark),
    if_neg (by omega : ¬reqNo < cw.lowWatermark), hfind]

lemma request_isSome (cw : clientWindow) (reqNo : Nat)
    (hwf : wfWindow cw) (hin : cw.inWatermarks reqNo = true) :
    (cw.request reqNo).isSome = true := by
  simp only [clientWindow.inWatermarks, Bool.and_eq_true, decide_eq_true_eq] at hin
  obtain ⟨hhi, hlo⟩ := hin
  obtain ⟨crn, hfind, _⟩ := wf_find cw hwf reqNo hlo hhi
  simp [clientWindow.request, if_neg (by omega : ¬reqNo > cw.highWatermark),
    if_neg (by omega : ¬reqNo < cw.lowWatermark), hfind]

lemma allocate_isSome (cw : clientWindow) (req : Request) (digest : Digest)
    (hwf : wfWindow cw) (hin : cw.inWatermarks req.reqNo = true) :
    (cw.allocate req digest).isSome = true := by
  simp only [clientWindow.inWatermarks, Bool.and_eq_true, decide_eq_true_eq] at hin
  obtain ⟨hhi, hlo⟩ := hin
  obtain ⟨crn, hfind, _⟩ := wf_find cw hwf req.reqNo hlo hhi
  simp [clientWindow.allocate, if_neg (by omega : ¬req.reqNo > cw.highWatermark),
    if_neg (by omega : ¬req.reqNo < cw.lowWatermark), hfind]

/-! ## Claim theorems -/

/-- **C1** (code bug).  The claimed invariant `low ≤ next_ready_mark` is
established by `newClientWindow` but broken by `clientWindow.garbageCollect`:
on a window `[0, 1]` whose reqNo 0 committed at seqNo 1 without having been
released (`nextReadyMark = 0`), garbage collection at seqNo 1 sets
`nextReadyMark` to the *removed* entry's reqNo (0) instead of advancing it
to the new low watermark (1).  The mark is left below `lowWatermark`,
pointing at a deleted slot, and the very next `advanceReady` run hits the
`dev sanity test: no mapping from reqNo` panic (modelled by `none`); the
claim (and the spec invariant `low ≤ next_ready_mark`) states the intended
behaviour, so the code is in error. -/
theorem c1_garbage_collect_mark_lags_low :
    wfWindow win1 ∧
    win1.lowWatermark ≤ win1.nextReadyMark ∧
    win1.nextReadyMark ≤ win1.highWatermark + 1 ∧
    (win1.garbageCollect 1).lowWatermark = 1 ∧
    (win1.garbageCollect 1).nextReadyMark = 0 ∧
    ¬((win1.garbageCollect 1).lowWatermark ≤ (win1.garbageCollect 1).nextReadyMark) ∧
    (win1.garbageCollect 1).highWatermark - (win1.garbageCollect 1).lowWatermark =
      win1.highWatermark - win1.lowWatermark ∧
    advanceFrom (win1.garbageCollect 1)
      ((win1.garbageCollect 1).highWatermark + 1 - (win1.garbageCollect 1).nextReadyMark)
      (win1.garbageCollect 1).nextReadyMark [] = none := by
  decide

/-- **C4** (counterexample).  `clientWindows.filter` does not classify a
`FetchRequest` by the target client's watermarks: with client 1's window at
`[5, 10]`, a `FetchRequest` for reqNo 0 (below the low watermark, which the
claim says must be `past`) is classified `current`, while the same
coordinates in a `RequestAck` are classified `past`. -/
theorem c4_fetch_not_classified_by_watermarks :
    alookup cws4.windows 1 = some win4 ∧
    win4.lowWatermark > 0 ∧
    cws4.filter (Msg.fetchRequest 1 0 []) = applyable.current ∧
    cws4.filter (Msg.fetchRequest 1 0 []) ≠ applyable.past ∧
    cws4.filter (Msg.requestAck 1 0 []) = applyable.past := by
  decide

/-- **C4** (amended).  `RequestAck` and `ForwardRequest` messages are
classified by the target client's watermarks (`past` below the low
watermark, `future` above the high watermark or for an unknown client);
`FetchRequest` is hard-coded `current` regardless of the watermarks. -/
theorem c4_filter_amended (cws : clientWindows) (msg : Msg) :
    cws.filter msg = filterSpecModel cws msg := by
  cases msg <;> rfl

/-- **C2**.  For an in-watermark `ack(source, reqNo, digest)`: the call
succeeds (no panic), `source` is added to that reqNo's digest's agreement
set, the returned newly-correct request is `some` exactly when the
agreement set size equals `someCorrectQuorum = f+1` and the request data
was already known (and it is that data), and `strongRequest` is set to
this digest exactly when the size equals `intersectionQuorum = 2f+1`
(otherwise it is left unchanged).  For a fresh `source` the set size grows
by one, so hitting `f+1` is exactly "just reached `f+1`". -/
theorem c2_ack_quorum_spec (cw : clientWindow) (source reqNo : Nat) (digest : Digest)
    (hwf : wfWindow cw) (hin : cw.inWatermarks reqNo = true) :
    ∃ crn0 cr crn nc cw',
      preCrn cw reqNo = some crn0 ∧
      cw.ack source reqNo digest = some (cr, crn, nc, cw') ∧
      source ∈ cr.agreements ∧
      cr.agreements = insert source (preAgreements cw reqNo digest) ∧
      cr.data = preData cw reqNo digest ∧
      (source ∉ preAgreements cw reqNo digest →
        cr.agreements.card = (preAgreements cw reqNo digest).card + 1) ∧
      (nc.isSome = true ↔
        (cr.agreements.card = someCorrectQuorum cw.networkConfig ∧ cr.data.isSome = true)) ∧
      (∀ q, nc = some q → cr.data = some q) ∧
      (cr.agreements.card = intersectionQuorum cw.networkConfig →
        crn.strongRequest = some digest) ∧
      (cr.agreements.card ≠ intersectionQuorum cw.networkConfig →
        crn.strongRequest = crn0.strongRequest) ∧
      alookup crn.digests digest = some cr := by
  have hin' := hin
  simp only [clientWindow.inWatermarks, Bool.and_eq_true, decide_eq_true_eq] at hin'
  obtain ⟨hhi, hlo⟩ := hin'
  obtain ⟨crn0, hfind, hr⟩ := wf_find cw hwf reqNo hlo hhi
  have hhi' : ¬reqNo > cw.highWatermark := by omega
  have hlo' : ¬reqNo < cw.lowWatermark := by omega
  have hA : preAgreements cw reqNo digest = (getOrNew crn0.digests digest).agreements := by
    rcases h : alookup crn0.digests digest with _ | cr0
    · simp [preAgreements, preEntry, preCrn, hfind, getOrNew, h]
    · simp [preAgreements, preEntry, preCrn, hfind, getOrNew, h]
  have hD : preData cw reqNo digest = (getOrNew crn0.digests digest).data := by
    rcases h : alookup crn0.digests digest with _ | cr0
    · simp [preData, preEntry, preCrn, hfind, getOrNew, h]
    · simp [preData, preEntry, preCrn, hfind, getOrNew, h]
  simp only [clientWindow.ack, if_neg hhi', if_neg hlo', hfind]
  refine ⟨crn0, _, _, _, _, hfind, rfl, Finset.mem_insert_self _ _, by rw [hA], hD.symm,
    ?_, ?_, ?_, ?_, ?_, alookup_ainsert_self _ _ _⟩
  · intro hs
    rw [hA] at hs
    rw [hA]
    exact Finset.card_insert_of_not_mem hs
  · by_cases hq : (insert source (getOrNew crn0.digests digest).agreements).card =
        someCorrectQuorum cw.networkConfig
    · simp [hq]
    · simp [hq]
  · intro q hq
    by_cases hc : (insert source (getOrNew crn0.digests digest).agreements).card =
        someCorrectQuorum cw.networkConfig
    · simp only [if_pos hc] at hq
      exact hq
    · simp [hc] at hq
  · intro hq
    simp [hq]
  · intro hq
    simp [if_neg hq]

/-- **C2** witness: a fresh ack from node 1 at reqNo 3 on the empty window
`cw2` (watermarks `[0, 5]`, `f = 1`): the hypotheses of
`c2_ack_quorum_spec` hold by computation. -/
theorem c2_ack_quorum_spec_witness :
    wfWindow cw2 ∧ cw2.inWatermarks 3 = true ∧
    (∃ crn0 cr crn nc cw',
      preCrn cw2 3 = some crn0 ∧
      cw2.ack 1 3 [9] = some (cr, crn, nc, cw') ∧
      1 ∈ cr.agreements ∧
      cr.agreements = insert 1 (preAgreements cw2 3 [9]) ∧
      cr.data = preData cw2 3 [9] ∧
      (1 ∉ preAgreements cw2 3 [9] →
        cr.agreements.card = (preAgreements cw2 3 [9]).card + 1) ∧
      (nc.isSome = true ↔
        (cr.agreements.card = someCorrectQuorum cw2.networkConfig ∧ cr.data.isSome = true)) ∧
      (∀ q, nc = some q → cr.data = some q) ∧
      (cr.agreements.card = intersectionQuorum cw2.networkConfig →
        crn.strongRequest = some [9]) ∧
      (cr.agreements.card ≠ intersectionQuorum cw2.networkConfig →
        crn.strongRequest = crn0.strongRequest) ∧
      alookup crn.digests [9] = some cr) :=
  ⟨by decide, by decide, c2_ack_quorum_spec cw2 1 3 [9] (by decide) (by decide)⟩

lemma advanceFrom_acc (cw : clientWindow) :
    ∀ fuel i : Nat, ∀ acc : List readyEntry,
    advanceFrom cw fuel i acc =
      (advanceFrom cw fuel i []).map (fun p => (p.1, acc ++ p.2)) := by
  intro fuel
  induction fuel with
  | zero => intro i acc; simp [advanceFrom]
  | succ fuel ih =>
    intro i acc
    simp only [advanceFrom]
    cases hfind : cw.reqNoList.find? (fun c => c.reqNo == i) with
    | none => simp
    | some crn =>
      by_cases hs : crn.strongData.isSome = true
      · simp only [hs, if_true]
        rw [ih (i + 1), ih (i + 1) ([] ++ _)]
        cases advanceFrom cw fuel (i + 1) [] with
        | none => simp
        | some p => simp
      · simp only [hs, if_false, Bool.false_eq_true]
        simp [hs]

lemma advanceFrom_spec (cw : clientWindow) (hwf : wfWindow cw) :
    ∀ fuel i : Nat, fuel = cw.highWatermark + 1 - i → cw.lowWatermark ≤ i →
    i ≤ cw.highWatermark + 1 →
    ∃ m es, advanceFrom cw fuel i [] = some (m, es) ∧ i ≤ m ∧ m ≤ cw.highWatermark + 1 ∧
      es.map (fun e => e.reqNo) = List.range' i (m - i) ∧
      (∀ e ∈ es, ∃ crn, cw.reqNoList.find? (fun c => c.reqNo == e.reqNo) = some crn ∧
        e = { clientID := crn.clientID, reqNo := crn.reqNo, committed := crn.committed } ∧
        crn.strongData.isSome = true) ∧
      (∀ r, i ≤ r → r < m →
        ∃ crn, cw.reqNoList.find? (fun c => c.reqNo == r) = some crn ∧
          crn.strongData.isSome = true) ∧
      (m ≤ cw.highWatermark →
        ∃ crn, cw.reqNoList.find? (fun c => c.reqNo == m) = some crn ∧
          crn.strongData = none) := by
  intro fuel
  induction fuel with
  | zero =>
    intro i hfuel hlo hhi
    have hi : i = cw.highWatermark + 1 := by omega
    refine ⟨i, [], by simp [advanceFrom], le_refl i, by omega, by simp, by simp, ?_, ?_⟩
    · intro r h1 h2; omega
    · intro h; omega
  | succ fuel ih =>
    intro i hfuel hlo hhi
    have hile : i ≤ cw.highWatermark := by omega
    obtain ⟨crn, hfind, hr⟩ := wf_find cw hwf i hlo hile
    by_cases hs : crn.strongData.isSome = true
    · obtain ⟨m, es, hrec, him, hmhi, hmap, hent, hall, hstop⟩ :=
        ih (i + 1) (by omega) (by omega) (by omega)
      have hres : advanceFrom cw (fuel + 1) i [] =
          some (m, { clientID := crn.clientID, reqNo := crn.reqNo,
                     committed := crn.committed } :: es) := by
        simp only [advanceFrom, hfind, hs, if_true]
        rw [advanceFrom_acc cw fuel (i + 1), hrec]
        simp
      refine ⟨m, _, hres, by omega, hmhi, ?_, ?_, ?_, hstop⟩
      · have hmi : m - i = (m - (i + 1)) + 1 := by omega
        rw [hmi, List.range'_succ]
        simp only [List.map_cons, hmap, hr]
      · intro e he
        rcases List.mem_cons.mp he with he | he
        · subst he
          exact ⟨crn, by simp only [hr]; exact hfind, rfl, hs⟩
        · exact hent e he
      · intro r h1 h2
        rcases Nat.eq_or_lt_of_le h1 with h | h
        · subst h
          exact ⟨crn, hfind, hs⟩
        · exact hall r h h2
    · refine ⟨i, [], ?_, le_refl i, by omega, by simp, by simp, ?_, ?_⟩
      · simp only [advanceFrom, hfind]
        simp [hs]
      · intro r h1 h2; omega
      · intro _
        exact ⟨crn, hfind, Option.not_isSome_iff_eq_none.mp (by simp [hs])⟩

/-- **C3**.  `advanceReady` releases to the global ready list exactly the
consecutive run of reqNos starting at `nextReadyMark` whose slots carry a
`strongRequest` with known data, appended in strictly ascending order; the
mark is advanced to the first reqNo failing the condition (or past the high
watermark), so per client every released reqNo is preceded only by reqNos
already released (earlier in this run or below the old mark, which is never
decreased). -/
theorem c3_advance_ready_spec (cws : clientWindows) (cid : Nat) (cw : clientWindow)
    (hcw : alookup cws.windows cid = some cw) (hwf : wfWindow cw)
    (hlow : cw.lowWatermark ≤ cw.nextReadyMark)
    (hhigh : cw.nextReadyMark ≤ cw.highWatermark + 1) :
    ∃ cws' m entries, cws.advanceReady cid = some cws' ∧
      cw.nextReadyMark ≤ m ∧ m ≤ cw.highWatermark + 1 ∧
      alookup cws'.windows cid = some { cw with nextReadyMark := m } ∧
      cws'.readyList = cws.readyList ++ entries ∧
      entries.map (fun e => e.reqNo) = List.range' cw.nextReadyMark (m - cw.nextReadyMark) ∧
      (entries.map (fun e => e.reqNo)).Pairwise (· < ·) ∧
      (∀ e ∈ entries, ∃ crn,
        cw.reqNoList.find? (fun c => c.reqNo == e.reqNo) = some crn ∧
        e = { clientID := crn.clientID, reqNo := crn.reqNo, committed := crn.committed } ∧
        crn.strongData.isSome = true) ∧
      (∀ r, cw.nextReadyMark ≤ r → r < m →
        ∃ crn, cw.reqNoList.find? (fun c => c.reqNo == r) = some crn ∧
          crn.strongData.isSome = true) ∧
      (m ≤ cw.highWatermark →
        ∃ crn, cw.reqNoList.find? (fun c => c.reqNo == m) = some crn ∧
          crn.strongData = none) := by
  obtain ⟨m, es, hrun, him, hmhi, hmap, hent, hall, hstop⟩ :=
    advanceFrom_spec cw hwf (cw.highWatermark + 1 - cw.nextReadyMark) cw.nextReadyMark
      rfl hlow hhigh
  have hready : cws.advanceReady cid =
      some { cws with
        readyList := cws.readyList ++ es
        windows := ainsert cws.windows cid { cw with nextReadyMark := m } } := by
    unfold clientWindows.advanceReady
    simp only [hcw, hrun]
  refine ⟨_, m, es, hready, him, hmhi, ?_, rfl, hmap, ?_, hent, hall, hstop⟩
  · exact alookup_ainsert_self _ _ _
  · rw [hmap]
    exact List.pairwise_lt_range' _ _

/-- **C3** witness: `advanceReady` on `cws3` (client 1, mark 0, reqNo 0
strong with data, reqNo 1 not), with the hypotheses computed. -/
theorem c3_advance_ready_spec_witness :
    alookup cws3.windows 1 = some win3 ∧ wfWindow win3 ∧
    win3.lowWatermark ≤ win3.nextReadyMark ∧
    win3.nextReadyMark ≤ win3.highWatermark + 1 ∧
    (∃ cws' m entries, cws3.advanceReady 1 = some cws' ∧
      win3.nextReadyMark ≤ m ∧ m ≤ win3.highWatermark + 1 ∧
      alookup cws'.windows 1 = some { win3 with nextReadyMark := m } ∧
      cws'.readyList = cws3.readyList ++ entries ∧
      entries.map (fun e => e.reqNo) =
        List.range' win3.nextReadyMark (m - win3.nextReadyMark) ∧
      (entries.map (fun e => e.reqNo)).Pairwise (· < ·) ∧
      (∀ e ∈ entries, ∃ crn,
        win3.reqNoList.find? (fun c => c.reqNo == e.reqNo) = some crn ∧
        e = { clientID := crn.clientID, reqNo := crn.reqNo, committed := crn.committed } ∧
        crn.strongData.isSome = true) ∧
      (∀ r, win3.nextReadyMark ≤ r → r < m →
        ∃ crn, win3.reqNoList.find? (fun c => c.reqNo == r) = some crn ∧
          crn.strongData.isSome = true) ∧
      (m ≤ win3.highWatermark →
        ∃ crn, win3.reqNoList.find? (fun c => c.reqNo == m) = some crn ∧
          crn.strongData = none)) :=
  ⟨by decide, by decide, by decide, by decide,
   c3_advance_ready_spec cws3 1 win3 (by decide) (by decide) (by decide) (by decide)⟩

/-- **C9**.  The reqNo domain of a client window (`reqNoMap`, here the
reqNos of `reqNoList`, which the source keeps in lockstep with the map) is
exactly the interval `[lowWatermark, highWatermark]`: `newClientWindow`
establishes this, `garbageCollect`, `ack`, and `allocate` preserve it, and
consequently the `dev sanity check` panics in `ack`, `allocate`, and
`request` are unreachable for any reqNo within the watermarks (the calls
return `some`). -/
theorem c9_reqno_domain_invariant :
    (∀ cid low high : Nat, ∀ cfg : NetConfig, wfWindow (newClientWindow cid low high cfg)) ∧
    (∀ cw : clientWindow, ∀ s : Nat, wfWindow cw → wfWindow (cw.garbageCollect s)) ∧
    (∀ cw : clientWindow, ∀ source reqNo : Nat, ∀ digest : Digest,
      ∀ out : clientRequest × clientReqNo × Option Request × clientWindow,
      wfWindow cw → cw.ack source reqNo digest = some out → wfWindow out.2.2.2) ∧
    (∀ cw : clientWindow, ∀ req : Request, ∀ digest : Digest,
      ∀ out : clientReqNo × Option Request × clientWindow,
      wfWindow cw → cw.allocate req digest = some out → wfWindow out.2.2) ∧
    (∀ cw : clientWindow, ∀ source reqNo : Nat, ∀ digest : Digest,
      wfWindow cw → cw.inWatermarks reqNo = true →
      (cw.ack source reqNo digest).isSome = true ∧ (cw.request reqNo).isSome = true) ∧
    (∀ cw : clientWindow, ∀ req : Request, ∀ digest : Digest,
      wfWindow cw → cw.inWatermarks req.reqNo = true →
      (cw.allocate req digest).isSome = true) :=
  ⟨wf_newClientWindow,
   fun cw s hwf => wf_garbageCollect cw s hwf,
   fun cw source reqNo digest out hwf h => wf_ack cw source reqNo digest out hwf h,
   fun cw req digest out hwf h => wf_allocate cw req digest out hwf h,
   fun cw source reqNo digest hwf hin =>
     ⟨ack_isSome cw source reqNo digest hwf hin, request_isSome cw reqNo hwf hin⟩,
   fun cw req digest hwf hin => allocate_isSome cw req digest hwf hin⟩

/-- **C9** witness: the invariant instantiated on the concrete window
`newClientWindow 7 0 3 cfg4`, its garbage collection at seqNo 5, and an
in-watermark ack/request/allocate at reqNo 2. -/
theorem c9_reqno_domain_invariant_witness :
    wfWindow (newClientWindow 7 0 3 cfg4) ∧
    wfWindow ((newClientWindow 7 0 3 cfg4).garbageCollect 5) ∧
    ((newClientWindow 7 0 3 cfg4).ack 1 2 [3]).isSome = true ∧
    ((newClientWindow 7 0 3 cfg4).request 2).isSome = true ∧
    ((newClientWindow 7 0 3 cfg4).allocate { clientId := 7, reqNo := 2, data := [] }
      [3]).isSome = true :=
  ⟨c9_reqno_domain_invariant.1 7 0 3 cfg4,
   c9_reqno_domain_invariant.2.1 (newClientWindow 7 0 3 cfg4) 5 (by decide),
   (c9_reqno_domain_invariant.2.2.2.2.1 (newClientWindow 7 0 3 cfg4) 1 2 [3]
     (by decide) (by decide)).1,
   (c9_reqno_domain_invariant.2.2.2.2.1 (newClientWindow 7 0 3 cfg4) 1 2 [3]
     (by decide) (by decide)).2,
   c9_reqno_domain_invariant.2.2.2.2.2 (newClientWindow 7 0 3 cfg4)
     { clientId := 7, reqNo := 2, data := [] } [3] (by decide) (by decide)⟩

/-- **C5** (counterexample).  `clientWindows.garbageCollect 5` does not
remove a committed ready-list entry that sits at the tail of the list: the
entry committed at seqNo 3 ≤ 5 survives, because the sweep refuses to
unlink the tail. -/
theorem c5_committed_tail_entry_survives :
    (cws5.garbageCollect 5).map (fun c => c.readyList) =
      some [anchorEntry, { clientID := 1, reqNo := 0, committed := some 3 }] ∧
    readyRemovable 5 { clientID := 1, reqNo := 0, committed := some 3 } = true := by
  decide

/-- **C10**.  `replyFetchRequest` returns empty `Actions` unless the
client window exists, the reqNo is within its watermarks, the requested
digest is recorded for that reqNo, and that digest's request data is
non-nil; when all four conditions hold it returns exactly one send of a
`ForwardRequest` carrying that data and digest, addressed only to the
requesting source. -/
theorem c10_reply_fetch_spec (cws : clientWindows) (source cid reqNo : Nat) (digest : Digest)
    (hwf : wfAt cws cid) :
    ∃ acts, cws.replyFetchRequest source cid reqNo digest = some acts ∧
      ((∃ cw crn cr dat,
          alookup cws.windows cid = some cw ∧ cw.inWatermarks reqNo = true ∧
          cw.request reqNo = some crn ∧ alookup crn.digests digest = some cr ∧
          cr.data = some dat ∧
          acts = { sends := [([source], Msg.forwardRequest dat digest)], hash := [] }) ∨
       (acts = emptyCActions ∧
        ¬∃ cw crn cr dat,
          alookup cws.windows cid = some cw ∧ cw.inWatermarks reqNo = true ∧
          cw.request reqNo = some crn ∧ alookup crn.digests digest = some cr ∧
          cr.data = some dat)) := by
  rcases hw : alookup cws.windows cid with _ | cw
  · refine ⟨emptyCActions, by simp [clientWindows.replyFetchRequest, hw], Or.inr ⟨rfl, ?_⟩⟩
    rintro ⟨cw, crn, cr, dat, hcw, -⟩
    cases hcw
  · by_cases hin : cw.inWatermarks reqNo = true
    · have hwfw := hwf cw hw
      obtain ⟨crn, hcrn⟩ := Option.isSome_iff_exists.mp (request_isSome cw reqNo hwfw hin)
      rcases hcr : alookup crn.digests digest with _ | cr
      · refine ⟨emptyCActions, ?_, Or.inr ⟨rfl, ?_⟩⟩
        · simp [clientWindows.replyFetchRequest, hw, hin, hcrn, hcr]
        · rintro ⟨cw', crn', cr', dat', hcw', hin', hcrn', hcr', hdat'⟩
          injection hcw' with hcw'
          subst hcw'
          rw [hcrn] at hcrn'
          injection hcrn' with hcrn'
          subst hcrn'
          rw [hcr] at hcr'
          cases hcr'
      · rcases hdat : cr.data with _ | dat
        · refine ⟨emptyCActions, ?_, Or.inr ⟨rfl, ?_⟩⟩
          · simp [clientWindows.replyFetchRequest, hw, hin, hcrn, hcr, hdat]
          · rintro ⟨cw', crn', cr', dat', hcw', hin', hcrn', hcr', hdat'⟩
            injection hcw' with hcw'
            subst hcw'
            rw [hcrn] at hcrn'
            injection hcrn' with hcrn'
            subst hcrn'
            rw [hcr] at hcr'
            injection hcr' with hcr'
            subst hcr'
            rw [hdat] at hdat'
            cases hdat'
        · refine ⟨_, ?_, Or.inl ⟨cw, crn, cr, dat, rfl, hin, hcrn, hcr, hdat, rfl⟩⟩
          simp [clientWindows.replyFetchRequest, hw, hin, hcrn, hcr, hdat]
    · have hinb : cw.inWatermarks reqNo = false := by
        cases h : cw.inWatermarks reqNo
        · rfl
        · exact absurd h hin
      refine ⟨emptyCActions, ?_, Or.inr ⟨rfl, ?_⟩⟩
      · simp [clientWindows.replyFetchRequest, hw, hinb]
      · rintro ⟨cw', crn', cr', dat', hcw', hin', -⟩
        injection hcw' with hcw'
        subst hcw'
        exact hin hin'

/-- **C10** witness: a fetch of (client 1, reqNo 1, digest `[7]`) on
`cws10`, where all four conditions hold, and the hypothesis holds by
computation. -/
theorem c10_reply_fetch_spec_witness :
    wfAt cws10 1 ∧
    (∃ acts, cws10.replyFetchRequest 2 1 1 [7] = some acts ∧
      ((∃ cw crn cr dat,
          alookup cws10.windows 1 = some cw ∧ cw.inWatermarks 1 = true ∧
          cw.request 1 = some crn ∧ alookup crn.digests [7] = some cr ∧
          cr.data = some dat ∧
          acts = { sends := [([2], Msg.forwardRequest dat [7])], hash := [] }) ∨
       (acts = emptyCActions ∧
        ¬∃ cw crn cr dat,
          alookup cws10.windows 1 = some cw ∧ cw.inWatermarks 1 = true ∧
          cw.request 1 = some crn ∧ alookup crn.digests [7] = some cr ∧
          cr.data = some dat))) :=
  ⟨by decide, c10_reply_fetch_spec cws10 2 1 1 [7] (by decide)⟩

/-- **C7** (counterexample).  `persistSerially` makes the
`RequestStore.Store` call and discards its returned error: in an
environment where every `Store` call fails, the store call is made (its
event is in the trace) and the processor does not halt. -/
theorem c7_store_error_is_ignored :
    envStoreErr.storeErr 0 = true ∧
    PEvent.store 0 ∈ (persistSerially envStoreErr acts7).1 ∧
    (persistSerially envStoreErr acts7).2 = false := by
  decide

lemma bool_eq_false_of_ne_true {b : Bool} (h : ¬b = true) : b = false := by
  cases hb : b
  · rfl
  · exact absurd hb h

lemma appendLoop_halt (env : PEnv) : ∀ (l : List Nat) (k : Nat),
    (appendLoop env l k).2 = true ↔ ∃ j, j < l.length ∧ env.appendErr (k + j) = true := by
  intro l
  induction l with
  | nil =>
    intro k
    simp [appendLoop]
  | cons x rest ih =>
    intro k
    by_cases he : env.appendErr k = true
    · constructor
      · intro _
        exact ⟨0, by simp, by simpa using he⟩
      · intro _
        simp [appendLoop, he]
    · have heb := bool_eq_false_of_ne_true he
      rcases hAL : appendLoop env rest (k + 1) with ⟨t, b⟩
      have hstep : appendLoop env (x :: rest) k = (PEvent.walAppend k :: t, b) := by
        simp [appendLoop, heb, hAL]
      have hrec := ih (k + 1)
      rw [hAL] at hrec
      rw [hstep]
      simp only [List.length_cons]
      constructor
      · intro hb
        obtain ⟨j, hj, hjE⟩ := hrec.mp hb
        refine ⟨j + 1, by omega, ?_⟩
        have harr : k + (j + 1) = k + 1 + j := by omega
        rw [harr]
        exact hjE
      · rintro ⟨j, hj, hjE⟩
        cases j with
        | zero =>
          simp only [Nat.add_zero] at hjE
          rw [hjE] at heb
          cases heb
        | succ j =>
          apply hrec.mpr
          refine ⟨j, by omega, ?_⟩
          have harr : k + 1 + j = k + (j + 1) := by omega
          rw [harr]
          exact hjE

lemma forwardLoop_halt (env : PEnv) : ∀ (l : List ForwardAction) (k : Nat),
    (forwardLoop env l k).2 = true ↔ ∃ j, j < l.length ∧ env.getErr (k + j) = true := by
  intro l
  induction l with
  | nil =>
    intro k
    simp [forwardLoop]
  | cons x rest ih =>
    intro k
    by_cases he : env.getErr k = true
    · constructor
      · intro _
        exact ⟨0, by simp, by simpa using he⟩
      · intro _
        simp [forwardLoop, he]
    · have heb := bool_eq_false_of_ne_true he
      rcases hFL : forwardLoop env rest (k + 1) with ⟨t, b⟩
      have hstep : forwardLoop env (x :: rest) k =
          (PEvent.rsGet k ::
            x.targets.map (fun t => if t = env.myId then PEvent.selfStep else PEvent.linkSend t)
            ++ t, b) := by
        simp [forwardLoop, heb, hFL]
      have hrec := ih (k + 1)
      rw [hFL] at hrec
      rw [hstep]
      simp only [List.length_cons]
      constructor
      · intro hb
        obtain ⟨j, hj, hjE⟩ := hrec.mp hb
        refine ⟨j + 1, by omega, ?_⟩
        have harr : k + (j + 1) = k + 1 + j := by omega
        rw [harr]
        exact hjE
      · rintro ⟨j, hj, hjE⟩
        cases j with
        | zero =>
          simp only [Nat.add_zero] at hjE
          rw [hjE] at heb
          cases heb
        | succ j =>
          apply hrec.mpr
          refine ⟨j, by omega, ?_⟩
          have harr : k + 1 + j = k + (j + 1) := by omega
          rw [harr]
          exact hjE

/-- **C7** (amended).  The serial processor halts on every error returned
by `RequestStore.Sync`, `WAL.Append`, `WAL.Sync` (persist phase), and
`RequestStore.Get` (transmit phase) — and on nothing else: in particular
the error returned by `RequestStore.Store` is discarded and never causes a
halt. -/
theorem c7_halt_characterization (env : PEnv) (a : ProcActions) :
    ((persistSerially env a).2 = true ↔
      env.rsSyncErr = true ∨ (∃ i, i < a.persist.length ∧ env.appendErr i = true) ∨
        env.walSyncErr = true) ∧
    ((transmitSerially env a).2 = true ↔
      ∃ i, i < a.forwardRequests.length ∧ env.getErr i = true) := by
  constructor
  · rcases hAL : appendLoop env a.persist 0 with ⟨t, b⟩
    have happ := appendLoop_halt env a.persist 0
    rw [hAL] at happ
    simp only [Nat.zero_add] at happ
    by_cases hrs : env.rsSyncErr = true
    · simp [persistSerially, hrs]
    · have hrsb := bool_eq_false_of_ne_true hrs
      by_cases hb : b = true
      · have hex := happ.mp hb
        simp [persistSerially, hrsb, hAL, hb, hex]
      · have hbb := bool_eq_false_of_ne_true hb
        have hnex : ¬∃ i, i < a.persist.length ∧ env.appendErr i = true := by
          intro hex
          exact hb (happ.mpr hex)
        simp [persistSerially, hrsb, hAL, hbb, hnex]
  · rcases hFL : forwardLoop env a.forwardRequests 0 with ⟨t, b⟩
    have hfwd := forwardLoop_halt env a.forwardRequests 0
    rw [hFL] at hfwd
    simp only [Nat.zero_add] at hfwd
    simpa [transmitSerially, hFL] using hfwd

lemma readyGCGo_head (s : Nat) : ∀ (l : List readyEntry) (el : readyEntry),
    ∃ t, readyGCGo s el l = el :: t := by
  intro l
  induction l with
  | nil => intro el; exact ⟨[], rfl⟩
  | cons n rest ih =>
    intro el
    by_cases hrem : readyRemovable s n = true
    · cases rest with
      | nil => exact ⟨[n], by simp [readyGCGo, hrem]⟩
      | cons m rest' =>
        obtain ⟨t, ht⟩ := ih el
        exact ⟨t, by rw [← ht]; simp [readyGCGo, hrem]⟩
    · have hremb := bool_eq_false_of_ne_true hrem
      refine ⟨readyGCGo s n rest, ?_⟩
      conv_lhs => rw [readyGCGo.eq_def]
      simp [hremb]

lemma readyGCGo_mid (s : Nat) : ∀ (l : List readyEntry) (el : readyEntry),
    ∀ e ∈ ((readyGCGo s el l).drop 1).dropLast, readyRemovable s e = false := by
  intro l
  induction l with
  | nil => intro el e he; simp [readyGCGo] at he
  | cons n rest ih =>
    intro el e he
    by_cases hrem : readyRemovable s n = true
    · cases rest with
      | nil =>
        simp [readyGCGo, hrem] at he
      | cons m rest' =>
        rw [show readyGCGo s el (n :: m :: rest') = readyGCGo s el (m :: rest') from by
          simp [readyGCGo, hrem]] at he
        exact ih el e he
    · have hremb := bool_eq_false_of_ne_true hrem
      have hstep : readyGCGo s el (n :: rest) = el :: readyGCGo s n rest := by
        conv_lhs => rw [readyGCGo.eq_def]
        simp [hremb]
      rw [hstep] at he
      simp only [List.drop_succ_cons, List.drop_zero] at he
      obtain ⟨t, ht⟩ := readyGCGo_head s rest n
      rw [ht] at he
      cases t with
      | nil => simp at he
      | cons t0 ts =>
        rw [List.dropLast_cons₂] at he
        rcases List.mem_cons.mp he with he | he
        · subst he
          exact hremb
        · apply ih n e
          rw [ht]
          simpa using he

lemma gcWindowsLoop_some (s : Nat) : ∀ (cls : List Nat) (ws : List (Nat × clientWindow)),
    (∀ c ∈ cls, (alookup ws c).isSome = true) →
    ∃ ws', gcWindowsLoop s cls ws = some ws' := by
  intro cls
  induction cls with
  | nil => intro ws _; exact ⟨ws, rfl⟩
  | cons c rest ih =>
    intro ws hall
    obtain ⟨cw, hcw⟩ := Option.isSome_iff_exists.mp (hall c (by simp))
    have hrest : ∀ c' ∈ rest, (alookup (ainsert ws c (cw.garbageCollect s)) c').isSome = true := by
      intro c' hc'
      rw [alookup_ainsert]
      by_cases h : c' = c
      · simp [h]
      · simp only [h, if_false]
        exact hall c' (by simp [hc'])
    obtain ⟨ws', hws'⟩ := ih (ainsert ws c (cw.garbageCollect s)) hrest
    exact ⟨ws', by simp [gcWindowsLoop, hcw, hws']⟩

lemma drainAll_empty : ∀ (nodes : List Nat) (cws : clientWindows),
    (∀ n ∈ nodes, alookup cws.msgBuffers n = some ([] : List Msg)) →
    ∃ cws', drainAll nodes cws = some cws' ∧ cws'.readyList = cws.readyList ∧
      cws'.windows = cws.windows := by
  intro nodes
  induction nodes with
  | nil => intro cws _; exact ⟨cws, rfl, rfl, rfl⟩
  | cons n rest ih =>
    intro cws hall
    have hn := hall n (by simp)
    have hrest : ∀ n' ∈ rest,
        alookup ({ cws with msgBuffers := ainsert cws.msgBuffers n [] } : clientWindows).msgBuffers
          n' = some ([] : List Msg) := by
      intro n' hn'
      by_cases h : n' = n
      · subst h
        exact alookup_ainsert_self _ _ _
      · rw [alookup_ainsert_ne _ _ _ _ h]
        exact hall n' (by simp [hn'])
    obtain ⟨cws', hdrain, hrl, hwin⟩ := ih { cws with msgBuffers := ainsert cws.msgBuffers n [] }
      hrest
    refine ⟨cws', ?_, hrl, hwin⟩
    simp [drainAll, hn, drainNode, hdrain]

/-- **C5** (amended).  After `clientWindows.garbageCollect(s)` (stated here
with all peer message buffers empty, isolating the collection itself from
buffered-message redelivery), every ready-list entry strictly between the
head and the final entry has `committed` unset or `> s` — committed
entries are unlinked — but the final entry is never unlinked (`do not
garbage collect the tail of the log`) even when its `committed ≤ s`, and
the permanent sentinel anchor remains at the head. -/
theorem c5_ready_gc_amended (cws : clientWindows) (s : Nat) (cfg : NetConfig)
    (h0 : readyEntry) (tl : List readyEntry)
    (hcfg : cws.networkConfig = some cfg)
    (hwins : ∀ c ∈ cws.clients, (alookup cws.windows c).isSome = true)
    (hbufs : ∀ n ∈ cfg.nodes, alookup cws.msgBuffers n = some ([] : List Msg))
    (hready : cws.readyList = h0 :: tl) :
    ∃ cws', cws.garbageCollect s = some cws' ∧
      cws'.readyList.head? = some h0 ∧
      (∀ e ∈ (cws'.readyList.drop 1).dropLast, readyRemovable s e = false) := by
  obtain ⟨ws', hws'⟩ := gcWindowsLoop_some s cws.clients cws.windows hwins
  have hgc : cws.garbageCollect s =
      drainAll cfg.nodes { cws with windows := ws', readyList := readyGCGo s h0 tl } := by
    unfold clientWindows.garbageCollect
    simp only [hws', hready, hcfg]
  obtain ⟨cws', hdrain, hrl, hwin⟩ :=
    drainAll_empty cfg.nodes { cws with windows := ws', readyList := readyGCGo s h0 tl }
      (by intro n hn; exact hbufs n hn)
  refine ⟨cws', by rw [hgc, hdrain], ?_, ?_⟩
  · rw [hrl]
    obtain ⟨t, ht⟩ := readyGCGo_head s tl h0
    simp [ht]
  · intro e he
    rw [hrl] at he
    exact readyGCGo_mid s tl h0 e he

/-- **C5** (amended) witness: `cws5` (anchor plus one committed tail entry,
one peer with an empty buffer) garbage collected at seqNo 5. -/
theorem c5_ready_gc_amended_witness :
    cws5.networkConfig = some cfg1 ∧
    (∀ c ∈ cws5.clients, (alookup cws5.windows c).isSome = true) ∧
    (∀ n ∈ cfg1.nodes, alookup cws5.msgBuffers n = some ([] : List Msg)) ∧
    cws5.readyList = anchorEntry :: [{ clientID := 1, reqNo := 0, committed := some 3 }] ∧
    (∃ cws', cws5.garbageCollect 5 = some cws' ∧
      cws'.readyList.head? = some anchorEntry ∧
      (∀ e ∈ (cws'.readyList.drop 1).dropLast, readyRemovable 5 e = false)) :=
  ⟨by decide, by decide, by decide, by decide,
   c5_ready_gc_amended cws5 5 cfg1 anchorEntry
     [{ clientID := 1, reqNo := 0, committed := some 3 }]
     (by decide) (by decide) (by decide) (by decide)⟩

/-! ### C8: phase ordering of the serial processor's collaborator calls -/

lemma phase_of_transmit (e : PEvent) (h : isTransmitEv e = true) : evPhase e = 1 := by
  cases e <;> simp_all [isTransmitEv, evPhase]

lemma phase_of_persist (e : PEvent) (h : isPersistEv e = true) : evPhase e = 0 := by
  cases e <;> simp_all [isPersistEv, evPhase]

lemma phase_of_apply (e : PEvent) (h : isApplyEv e = true) : evPhase e = 2 := by
  cases e <;> simp_all [isApplyEv, evPhase]

lemma appendLoop_phase (env : PEnv) : ∀ (l : List Nat) (k : Nat) (e : PEvent),
    e ∈ (appendLoop env l k).1 → evPhase e = 0 := by
  intro l
  induction l with
  | nil =>
    intro k e he
    simp [appendLoop] at he
  | cons x rest ih =>
    intro k e he
    by_cases hk : env.appendErr k = true
    · simp [appendLoop, hk] at he
      subst he
      rfl
    · have hkb := bool_eq_false_of_ne_true hk
      rcases hAL : appendLoop env rest (k + 1) with ⟨t, b⟩
      have hstep : appendLoop env (x :: rest) k = (PEvent.walAppend k :: t, b) := by
        simp [appendLoop, hkb, hAL]
      rw [hstep] at he
      rcases List.mem_cons.mp he with he | he
      · subst he
        rfl
      · apply ih (k + 1) e
        rw [hAL]
        exact he

lemma persist_trace_phase (env : PEnv) (a : ProcActions) :
    ∀ e ∈ (persistSerially env a).1, evPhase e = 0 := by
  intro e he
  have hstore : ∀ e', e' ∈ (List.range a.storeRequests.length).map PEvent.store →
      evPhase e' = 0 := by
    intro e' he'
    obtain ⟨i, _, rfl⟩ := List.mem_map.mp he'
    rfl
  unfold persistSerially at he
  rcases hAL : appendLoop env a.persist 0 with ⟨t, b⟩
  rw [hAL] at he
  by_cases hrs : env.rsSyncErr = true
  · simp only [hrs, if_true] at he
    rcases List.mem_append.mp he with he | he
    · exact hstore e he
    · simp at he
      subst he
      rfl
  · have hrsb := bool_eq_false_of_ne_true hrs
    simp only [hrsb, Bool.false_eq_true, if_false] at he
    by_cases hb : b = true
    · simp only [hb, if_true] at he
      rcases List.mem_append.mp he with he | he
      · rcases List.mem_append.mp he with he | he
        · exact hstore e he
        · simp at he
          subst he
          rfl
      · apply appendLoop_phase env a.persist 0 e
        rw [hAL]
        exact he
    · have hbb := bool_eq_false_of_ne_true hb
      simp only [hbb, Bool.false_eq_true, if_false] at he
      rcases List.mem_append.mp he with he | he
      · rcases List.mem_append.mp he with he | he
        · rcases List.mem_append.mp he with he | he
          · exact hstore e he
          · simp at he
            subst he
            rfl
        · apply appendLoop_phase env a.persist 0 e
          rw [hAL]
          exact he
      · simp at he
        subst he
        rfl

lemma sendEvents_phase (env : PEnv) (s : SendAction) :
    ∀ e ∈ sendEvents env s, evPhase e = 1 := by
  intro e he
  obtain ⟨tgt, _, rfl⟩ := List.mem_map.mp he
  by_cases h : tgt = env.myId <;> simp [h, evPhase]

lemma forwardLoop_phase (env : PEnv) : ∀ (l : List ForwardAction) (k : Nat) (e : PEvent),
    e ∈ (forwardLoop env l k).1 → evPhase e = 1 := by
  intro l
  induction l with
  | nil =>
    intro k e he
    simp [forwardLoop] at he
  | cons x rest ih =>
    intro k e he
    by_cases hk : env.getErr k = true
    · simp [forwardLoop, hk] at he
      subst he
      rfl
    · have hkb := bool_eq_false_of_ne_true hk
      rcases hFL : forwardLoop env rest (k + 1) with ⟨t, b⟩
      have hstep : forwardLoop env (x :: rest) k =
          (PEvent.rsGet k ::
            x.targets.map (fun tg => if tg = env.myId then PEvent.selfStep else PEvent.linkSend tg)
            ++ t, b) := by
        simp [forwardLoop, hkb, hFL]
      rw [hstep] at he
      rcases List.mem_cons.mp he with he | he
      · subst he
        rfl
      · rcases List.mem_append.mp he with he | he
        · obtain ⟨tgt, _, rfl⟩ := List.mem_map.mp he
          by_cases h : tgt = env.myId <;> simp [h, evPhase]
        · apply ih (k + 1) e
          rw [hFL]
          exact he

lemma transmit_trace_phase (env : PEnv) (a : ProcActions) :
    ∀ e ∈ (transmitSerially env a).1, evPhase e = 1 := by
  intro e he
  unfold transmitSerially at he
  rcases hFL : forwardLoop env a.forwardRequests 0 with ⟨t, b⟩
  rw [hFL] at he
  rcases List.mem_append.mp he with he | he
  · obtain ⟨l, hl, hel⟩ := List.mem_flatten.mp he
    obtain ⟨s, _, rfl⟩ := List.mem_map.mp hl
    exact sendEvents_phase env s e hel
  · apply forwardLoop_phase env a.forwardRequests 0 e
    rw [hFL]
    exact he

lemma apply_trace_phase (a : ProcActions) :
    ∀ e ∈ applySerially a, evPhase e = 2 := by
  intro e he
  unfold applySerially at he
  rcases List.mem_append.mp he with he | he
  · obtain ⟨x, _, rfl⟩ := List.mem_map.mp he
    rfl
  · obtain ⟨l, hl, hel⟩ := List.mem_flatten.mp he
    obtain ⟨c, _, rfl⟩ := List.mem_map.mp hl
    by_cases hc : c.checkpoint = true
    · simp [hc] at hel
      rcases hel with hel | hel <;> (subst hel; rfl)
    · have hcb := bool_eq_false_of_ne_true hc
      simp [hcb] at hel
      subst hel
      rfl

lemma process_decomp (env : PEnv) (a : ProcActions) :
    ∃ t1 t2 t3, (ProcessSerially env a).1 = t1 ++ t2 ++ t3 ∧
      (∀ e ∈ t1, evPhase e = 0) ∧ (∀ e ∈ t2, evPhase e = 1) ∧ (∀ e ∈ t3, evPhase e = 2) := by
  unfold ProcessSerially
  rcases hP : persistSerially env a with ⟨t1, h1⟩
  have hp1 : ∀ e ∈ t1, evPhase e = 0 := by
    intro e he
    apply persist_trace_phase env a
    rw [hP]
    exact he
  by_cases hh1 : h1 = true
  · exact ⟨t1, [], [], by simp [hh1], hp1, by simp, by simp⟩
  · have hh1b := bool_eq_false_of_ne_true hh1
    rcases hT : transmitSerially env a with ⟨t2, h2⟩
    have hp2 : ∀ e ∈ t2, evPhase e = 1 := by
      intro e he
      apply transmit_trace_phase env a
      rw [hT]
      exact he
    by_cases hh2 : h2 = true
    · exact ⟨t1, t2, [], by simp [hh1b, hT, hh2], hp1, hp2, by simp⟩
    · have hh2b := bool_eq_false_of_ne_true hh2
      exact ⟨t1, t2, applySerially a, by simp [hh1b, hT, hh2b], hp1, hp2,
        apply_trace_phase a⟩

lemma getD_phase_piecewise (t1 t2 t3 : List PEvent)
    (h1 : ∀ e ∈ t1, evPhase e = 0) (h2 : ∀ e ∈ t2, evPhase e = 1)
    (h3 : ∀ e ∈ t3, evPhase e = 2) (k : Nat) (hk : k < (t1 ++ t2 ++ t3).length) :
    evPhase ((t1 ++ t2 ++ t3).getD k PEvent.logSnap) =
      (if k < t1.length then 0 else if k < t1.length + t2.length then 1 else 2) := by
  by_cases hk1 : k < t1.length
  · have ha : (t1 ++ t2 ++ t3).getD k PEvent.logSnap = t1.getD k PEvent.logSnap := by
      rw [@List.getD_append _ (t1 ++ t2) t3 PEvent.logSnap k (by simp; omega),
        @List.getD_append _ t1 t2 PEvent.logSnap k hk1]
    rw [ha, if_pos hk1]
    apply h1
    rw [List.getD_eq_get t1 PEvent.logSnap hk1]
    exact List.get_mem t1 k hk1
  · by_cases hk2 : k < t1.length + t2.length
    · have hidx : k - t1.length < t2.length := by omega
      have ha : (t1 ++ t2 ++ t3).getD k PEvent.logSnap =
          t2.getD (k - t1.length) PEvent.logSnap := by
        rw [@List.getD_append _ (t1 ++ t2) t3 PEvent.logSnap k (by simp; omega),
          @List.getD_append_right _ t1 t2 PEvent.logSnap k (by omega)]
      rw [ha, if_neg hk1, if_pos hk2]
      apply h2
      rw [List.getD_eq_get t2 PEvent.logSnap hidx]
      exact List.get_mem t2 _ hidx
    · have hlen : (t1 ++ t2 ++ t3).length = t1.length + t2.length + t3.length := by
        simp
        omega
      have hidx : k - (t1.length + t2.length) < t3.length := by omega
      have ha : (t1 ++ t2 ++ t3).getD k PEvent.logSnap =
          t3.getD (k - (t1.length + t2.length)) PEvent.logSnap := by
        rw [@List.getD_append_right _ (t1 ++ t2) t3 PEvent.logSnap k (by simp; omega)]
        congr 1
        simp
      rw [ha, if_neg hk1, if_neg hk2]
      apply h3
      rw [List.getD_eq_get t3 PEvent.logSnap hidx]
      exact List.get_mem t3 _ hidx

lemma process_phase_mono (env : PEnv) (a : ProcActions) (i j : Nat)
    (hij : i ≤ j) (hj : j < ((ProcessSerially env a).1).length) :
    evPhase (((ProcessSerially env a).1).getD i PEvent.logSnap) ≤
      evPhase (((ProcessSerially env a).1).getD j PEvent.logSnap) := by
  obtain ⟨t1, t2, t3, hdec, h1, h2, h3⟩ := process_decomp env a
  rw [hdec] at hj ⊢
  rw [getD_phase_piecewise t1 t2 t3 h1 h2 h3 i (by omega),
    getD_phase_piecewise t1 t2 t3 h1 h2 h3 j hj]
  split_ifs <;> omega

/-- **C8**.  In `ProcessSerially` every persistence call
(`RequestStore.Store`, `RequestStore.Sync`, `WAL.Append`, `WAL.Sync`)
comes before every transmission (`Link.Send` or self-`Step`) of the same
`Actions` batch, and every transmission comes before every commit
application (`Log.Apply`). -/
theorem c8_process_serially_ordering (env : PEnv) (a : ProcActions) :
    ∀ i j : Nat, i < ((ProcessSerially env a).1).length →
      j < ((ProcessSerially env a).1).length →
      (isTransmitEv (((ProcessSerially env a).1).getD i PEvent.logSnap) = true →
        isPersistEv (((ProcessSerially env a).1).getD j PEvent.logSnap) = true → j < i) ∧
      (isApplyEv (((ProcessSerially env a).1).getD i PEvent.logSnap) = true →
        isTransmitEv (((ProcessSerially env a).1).getD j PEvent.logSnap) = true → j < i) := by
  intro i j hi hj
  constructor
  · intro ht hp
    by_contra hc
    have hij : i ≤ j := by omega
    have := process_phase_mono env a i j hij hj
    rw [phase_of_transmit _ ht, phase_of_persist _ hp] at this
    omega
  · intro ha ht
    by_contra hc
    have hij : i ≤ j := by omega
    have := process_phase_mono env a i j hij hj
    rw [phase_of_apply _ ha, phase_of_transmit _ ht] at this
    omega

/-- **C8** witness: on the error-free environment `env8` and the batch
`acts8` (one persisted entry, one send to node 5, one commit), the trace is
`[rsSync, walAppend 0, walSync, linkSend 5, logApply]`; the theorem applied
at the send (index 3) and the append (index 1), and at the apply (index 4)
and the send (index 3), yields `1 < 3` and `3 < 4`. -/
theorem c8_process_serially_ordering_witness :
    (3 < ((ProcessSerially env8 acts8).1).length) ∧
    (isTransmitEv (((ProcessSerially env8 acts8).1).getD 3 PEvent.logSnap) = true) ∧
    (isPersistEv (((ProcessSerially env8 acts8).1).getD 1 PEvent.logSnap) = true) ∧
    (1 : Nat) < 3 ∧
    (isApplyEv (((ProcessSerially env8 acts8).1).getD 4 PEvent.logSnap) = true) ∧
    (3 : Nat) < 4 :=
  ⟨by decide, by decide, by decide,
   (c8_process_serially_ordering env8 acts8 3 1 (by decide) (by decide)).1
     (by decide) (by decide),
   by decide,
   (c8_process_serially_ordering env8 acts8 4 3 (by decide) (by decide)).2
     (by decide) (by decide)⟩

/-! ### C6: WAL replay -/

lemma allocate_spec (cw : clientWindow) (req : Request) (digest : Digest)
    (crn : clientReqNo) (nc : Option Request) (cwA : clientWindow)
    (h : cw.allocate req digest = some (crn, nc, cwA)) :
    crn.reqNo = req.reqNo ∧
    (∃ cr, alookup crn.digests digest = some cr ∧ cr.data = some req) ∧
    cwA.reqNoList = updateSlot cw.reqNoList req.reqNo crn ∧
    (cw.reqNoList.find? (fun c => c.reqNo == req.reqNo)).isSome = true := by
  unfold clientWindow.allocate at h
  split_ifs at h
  rcases hfind : cw.reqNoList.find? (fun c => c.reqNo == req.reqNo) with _ | crn0
  · simp only [hfind] at h
    cases h
  · simp only [hfind] at h
    injection h with h
    injection h with h1 h23
    injection h23 with h2 h3
    subst h1
    subst h3
    refine ⟨by simpa using List.find?_some hfind, ⟨_, alookup_ainsert_self _ _ _, rfl⟩, rfl,
      by rw [hfind]; rfl⟩

lemma allocOne_post (cws : clientWindows) (fr : ForwardReq) (cws' : clientWindows)
    (h : allocOne cws fr = some cws') : allocatedStrong cws' fr := by
  unfold allocOne at h
  rcases hw : alookup cws.windows fr.request.clientId with _ | cw
  · simp only [hw] at h
    cases h
  · simp only [hw] at h
    rcases hal : cw.allocate fr.request fr.digest with _ | out
    · simp only [hal] at h
      cases h
    · obtain ⟨crn, nc, cwA⟩ := out
      simp only [hal] at h
      injection h with h
      subst h
      obtain ⟨hreq, ⟨cr, hcr, hdata⟩, hlist, hfindSome⟩ := allocate_spec cw fr.request
        fr.digest crn nc cwA hal
      have hfindA : (cwA.reqNoList.find? (fun c => c.reqNo == fr.request.reqNo)).isSome = true := by
        rw [hlist, find?_updateSlot_self cw.reqNoList fr.request.reqNo crn hreq hfindSome]
        rfl
      have hfindA' : (cwA.reqNoList.find? (fun c => c.reqNo == crn.reqNo)).isSome = true := by
        rw [hreq]
        exact hfindA
      refine ⟨{ crn with strongRequest := some fr.digest }, cr, ?_, rfl, hcr, hdata⟩
      simp only [slotAt, alookup_ainsert_self]
      rw [← hreq]
      exact find?_updateSlot_self cwA.reqNoList crn.reqNo
        { crn with strongRequest := some fr.digest } rfl hfindA'

lemma allocOne_slot_frame (cws : clientWindows) (fr : ForwardReq) (cws' : clientWindows)
    (h : allocOne cws fr = some cws') (c r : Nat)
    (hne : c ≠ fr.request.clientId ∨ r ≠ fr.request.reqNo) :
    slotAt cws' c r = slotAt cws c r := by
  unfold allocOne at h
  rcases hw : alookup cws.windows fr.request.clientId with _ | cw
  · simp only [hw] at h
    cases h
  · simp only [hw] at h
    rcases hal : cw.allocate fr.request fr.digest with _ | out
    · simp only [hal] at h
      cases h
    · obtain ⟨crn, nc, cwA⟩ := out
      simp only [hal] at h
      injection h with h
      subst h
      obtain ⟨hreq, -, hlist, -⟩ := allocate_spec cw fr.request fr.digest crn nc cwA hal
      by_cases hc : c = fr.request.clientId
      · subst hc
        rcases hne with hne | hne
        · exact absurd rfl hne
        · have hrcrn : r ≠ crn.reqNo := by rw [hreq]; exact hne
          simp only [slotAt, alookup_ainsert_self, hw]
          rw [find?_updateSlot_ne cwA.reqNoList crn.reqNo
              { crn with strongRequest := some fr.digest } rfl r hrcrn, hlist,
            find?_updateSlot_ne cw.reqNoList fr.request.reqNo crn hreq r hne]
      · simp only [slotAt]
        rw [alookup_ainsert_ne _ _ _ _ hc]

lemma allocList_frame : ∀ (reqs : List ForwardReq) (cws cws' : clientWindows),
    allocList cws reqs = some cws' →
    ∀ fr : ForwardReq, (∀ fr' ∈ reqs, distinctAddr fr fr') →
    allocatedStrong cws fr → allocatedStrong cws' fr := by
  intro reqs
  induction reqs with
  | nil =>
    intro cws cws' h fr _ hstr
    unfold allocList at h
    injection h with h
    subst h
    exact hstr
  | cons x rest ih =>
    intro cws cws' h fr hdist hstr
    unfold allocList at h
    rcases h1 : allocOne cws x with _ | cws1
    · simp only [h1] at h
      cases h
    · simp only [h1] at h
      apply ih cws1 cws' h fr (fun fr' hfr' => hdist fr' (by simp [hfr']))
      obtain ⟨crn, cr, hslot, hstrong, hcr, hdata⟩ := hstr
      refine ⟨crn, cr, ?_, hstrong, hcr, hdata⟩
      rw [allocOne_slot_frame cws x cws1 h1 fr.request.clientId fr.request.reqNo
        (hdist x (by simp))]
      exact hslot

lemma allocList_post : ∀ (reqs : List ForwardReq) (cws cws' : clientWindows),
    allocList cws reqs = some cws' → List.Pairwise distinctAddr reqs →
    ∀ fr ∈ reqs, allocatedStrong cws' fr := by
  intro reqs
  induction reqs with
  | nil =>
    intro cws cws' _ _ fr hfr
    simp at hfr
  | cons x rest ih =>
    intro cws cws' h hpw fr hfr
    unfold allocList at h
    rcases h1 : allocOne cws x with _ | cws1
    · simp only [h1] at h
      cases h
    · simp only [h1] at h
      rcases List.pairwise_cons.mp hpw with ⟨hx, hrest⟩
      rcases List.mem_cons.mp hfr with hfr | hfr
      · subst hfr
        exact allocList_frame rest cws1 cws' h fr hx (allocOne_post cws fr cws1 h1)
      · exact ih cws1 cws' h hrest fr hfr

lemma advanceFrom_stop (cw : clientWindow) : ∀ (fuel i : Nat) (acc : List readyEntry)
    (m : Nat) (es : List readyEntry),
    advanceFrom cw fuel i acc = some (m, es) → fuel = cw.highWatermark + 1 - i →
    m ≤ cw.highWatermark →
    ∃ crn, cw.reqNoList.find? (fun c => c.reqNo == m) = some crn ∧ crn.strongData = none := by
  intro fuel
  induction fuel with
  | zero =>
    intro i acc m es h hfuel hm
    unfold advanceFrom at h
    injection h with h
    injection h with h1 h2
    subst h1
    omega
  | succ fuel ih =>
    intro i acc m es h hfuel hm
    unfold advanceFrom at h
    rcases hfind : cw.reqNoList.find? (fun c => c.reqNo == i) with _ | crn
    · simp only [hfind] at h
      cases h
    · simp only [hfind] at h
      by_cases hs : crn.strongData.isSome = true
      · rw [if_pos hs] at h
        exact ih (i + 1) _ m es h (by omega) hm
      · rw [if_neg hs] at h
        injection h with h
        injection h with h1 h2
        subst h1
        exact ⟨crn, hfind, Option.not_isSome_iff_eq_none.mp hs⟩

lemma advanceReady_gives_fix (cws : clientWindows) (cid : Nat) (cws' : clientWindows)
    (h : cws.advanceReady cid = some cws') : fixAt cws' cid := by
  unfold clientWindows.advanceReady at h
  rcases hw : alookup cws.windows cid with _ | cw
  · simp only [hw] at h
    cases h
  · simp only [hw] at h
    rcases hrun : advanceFrom cw (cw.highWatermark + 1 - cw.nextReadyMark) cw.nextReadyMark []
      with _ | p
    · simp only [hrun] at h
      cases h
    · obtain ⟨m, es⟩ := p
      simp only [hrun] at h
      injection h with h
      subst h
      refine ⟨{ cw with nextReadyMark := m }, alookup_ainsert_self _ _ _, ?_⟩
      intro hm
      exact advanceFrom_stop cw _ cw.nextReadyMark [] m es hrun rfl hm

lemma advanceReady_frame (cws : clientWindows) (cid : Nat) (cws' : clientWindows)
    (h : cws.advanceReady cid = some cws') :
    (∀ c, c ≠ cid → alookup cws'.windows c = alookup cws.windows c) ∧
    cws'.clients = cws.clients := by
  unfold clientWindows.advanceReady at h
  rcases hw : alookup cws.windows cid with _ | cw
  · simp only [hw] at h
    cases h
  · simp only [hw] at h
    rcases hrun : advanceFrom cw (cw.highWatermark + 1 - cw.nextReadyMark) cw.nextReadyMark []
      with _ | p
    · simp only [hrun] at h
      cases h
    · obtain ⟨m, es⟩ := p
      simp only [hrun] at h
      injection h with h
      subst h
      exact ⟨fun c hc => alookup_ainsert_ne _ _ _ _ hc, rfl⟩

lemma advanceAll_fix : ∀ (cls : List Nat) (cws out : clientWindows),
    advanceAll cls cws = some out →
    (∀ c ∈ cls, fixAt out c) ∧
    (∀ c, c ∉ cls → alookup out.windows c = alookup cws.windows c) ∧
    out.clients = cws.clients := by
  intro cls
  induction cls with
  | nil =>
    intro cws out h
    unfold advanceAll at h
    injection h with h
    subst h
    exact ⟨by simp, fun c _ => rfl, rfl⟩
  | cons c rest ih =>
    intro cws out h
    unfold advanceAll at h
    rcases h1 : cws.advanceReady c with _ | cws1
    · simp only [h1] at h
      cases h
    · simp only [h1] at h
      obtain ⟨hfixr, hframer, hclir⟩ := ih cws1 out h
      obtain ⟨hframe1, hcli1⟩ := advanceReady_frame cws c cws1 h1
      refine ⟨?_, ?_, by rw [hclir, hcli1]⟩
      · intro c' hc'
        rcases List.mem_cons.mp hc' with hc' | hc'
        · subst hc'
          by_cases hmem : c' ∈ rest
          · exact hfixr c' hmem
          · obtain ⟨cw, hcw, hprop⟩ := advanceReady_gives_fix cws c' cws1 h1
            exact ⟨cw, by rw [hframer c' hmem]; exact hcw, hprop⟩
        · exact hfixr c' hc'
      · intro c' hc'
        have hc1 : c' ≠ c := fun hh => hc' (by simp [hh])
        have hc2 : c' ∉ rest := fun hh => hc' (by simp [hh])
        rw [hframer c' hc2, hframe1 c' hc1]

/-- **C6**.  (i) Replaying a PEntry looks up its digest among the buffered
QEntry batches and allocates every request of the matching batch; when the
batch's (client, reqNo) addresses are distinct, every one of its requests
ends up allocated in its client's window with the payload recorded under
its digest and `strongRequest` pointing at that digest's entry.  (ii) After
`newClientWindows` replays the whole log, the ready pointer of every
client has been advanced to its fixpoint (`advanceReady` was run for every
client). -/
theorem c6_replay_spec :
    (∀ (st st' : clientWindows × List (Digest × List ForwardReq)) (d : Digest),
      applyPersistEntry st (PersistEntry.pentry d) = some st' →
      st'.2 = st.2 ∧ ∃ reqs, alookup st.2 d = some reqs ∧ allocList st.1 reqs = some st'.1 ∧
        (List.Pairwise distinctAddr reqs → ∀ fr ∈ reqs, allocatedStrong st'.1 fr)) ∧
    (∀ (myId : Nat) (log : List PersistEntry) (cws : clientWindows),
      newClientWindows myId log = some cws → ∀ c ∈ cws.clients, fixAt cws c) := by
  constructor
  · intro st st' d h
    unfold applyPersistEntry at h
    rcases hb : alookup st.2 d with _ | reqs
    · simp only [hb] at h
      cases h
    · simp only [hb] at h
      rcases hal : allocList st.1 reqs with _ | cws1
      · simp only [hal] at h
        cases h
      · simp only [hal] at h
        injection h with h
        subst h
        exact ⟨rfl, reqs, rfl, hal, fun hpw fr hfr => allocList_post reqs st.1 cws1 hal hpw fr hfr⟩
  · intro myId log cws h
    unfold newClientWindows at h
    rcases hrep : replayLoop (initCWS myId, []) log with _ | st0
    · simp only [hrep] at h
      cases h
    · simp only [hrep] at h
      obtain ⟨cws0, batches0⟩ := st0
      rcases hadv : advanceAll cws0.clients cws0 with _ | cws1
      · simp only [hadv] at h
        cases h
      · simp only [hadv] at h
        rcases hcfg : cws1.networkConfig with _ | cfg
        · simp only [hcfg] at h
          cases h
        · simp only [hcfg] at h
          injection h with h
          subst h
          obtain ⟨hfix, -, hcli⟩ := advanceAll_fix cws0.clients cws0 cws1 hadv
          intro c hc
          have hc' : c ∈ cws0.clients := by
            simpa [hcli] using hc
          obtain ⟨cw, hcw, hprop⟩ := hfix c hc'
          exact ⟨cw, hcw, hprop⟩

/-- **C6** witness: the concrete log `log6` (CEntry for client 3, QEntry
`[9]` with one request at reqNo 4, PEntry `[9]`), with the replay prefix
state `st6` and the post-PEntry state `st6'`, plus the full replay
`cws6`. -/
theorem c6_replay_spec_witness :
    applyPersistEntry st6 pe6 = some st6' ∧
    st6'.2 = st6.2 ∧
    alookup st6.2 [9] = some batch6 ∧
    List.Pairwise distinctAddr batch6 ∧
    (∀ fr ∈ batch6, allocatedStrong st6'.1 fr) ∧
    newClientWindows 0 log6 = some cws6 ∧
    (∀ c ∈ cws6.clients, fixAt cws6 c) := by
  have h1 : applyPersistEntry st6 pe6 = some st6' := (Option.some_get _).symm
  have h2 := c6_replay_spec.1 st6 st6' [9] h1
  obtain ⟨heq, reqs, hreqs, hal, hpost⟩ := h2
  have hreqs6 : reqs = batch6 := by
    have hb : alookup st6.2 [9] = some batch6 := by decide
    rw [hb] at hreqs
    exact (Option.some.inj hreqs).symm
  subst hreqs6
  have h3 : newClientWindows 0 log6 = some cws6 := (Option.some_get _).symm
  exact ⟨h1, heq, hreqs, by decide, hpost (by decide), h3,
    c6_replay_spec.2 0 log6 cws6 h3⟩

end Mirbft
